import Mathlib

/-!
Verification development for the herscat proxy stress tester.

The Rust sources are shallowly embedded below: pure helpers become Lean
functions, fallible code returns `Except`/`Option`, machine integers are
`Nat` with explicit reduction modulo 2^64 where the source uses wrapping
`u64` arithmetic, and `f64` statistics arithmetic is idealized over `ℚ`.
-/

deriving instance DecidableEq for Except

/-! ## Shared counters (src/src/stressor/mod.rs, `SharedCounters`) -/

/-- Modulus of the `u64` atomic counters (`fetch_add` wraps). -/
def u64Mod : Nat := 2 ^ 64

/-- From `SharedCounters` in src/src/stressor/mod.rs: four `u64` counters. -/
structure SharedCounters where
  success_events : Nat
  failure_events : Nat
  bytes_transferred : Nat
  packets_sent : Nat
deriving DecidableEq, Repr

/-- `SharedCounters::new`. -/
def SharedCounters.new : SharedCounters :=
  { success_events := 0, failure_events := 0, bytes_transferred := 0, packets_sent := 0 }

/-- `SharedCounters::record_success`: `success_events.fetch_add(1)`. -/
def SharedCounters.record_success (c : SharedCounters) : SharedCounters :=
  { c with success_events := (c.success_events + 1) % u64Mod }

/-- `SharedCounters::record_failure`: `failure_events.fetch_add(1)`. -/
def SharedCounters.record_failure (c : SharedCounters) : SharedCounters :=
  { c with failure_events := (c.failure_events + 1) % u64Mod }

/-- `SharedCounters::record_bytes`: `bytes_transferred.fetch_add(bytes)`. -/
def SharedCounters.record_bytes (c : SharedCounters) (bytes : Nat) : SharedCounters :=
  { c with bytes_transferred := (c.bytes_transferred + bytes) % u64Mod }

/-- `SharedCounters::record_packet`: `record_success`, then
`packets_sent.fetch_add(1)`, then `bytes_transferred.fetch_add(payload_bytes)`. -/
def SharedCounters.record_packet (c : SharedCounters) (payload_bytes : Nat) : SharedCounters :=
  let c1 := c.record_success
  let c2 := { c1 with packets_sent := (c1.packets_sent + 1) % u64Mod }
  { c2 with bytes_transferred := (c2.bytes_transferred + payload_bytes) % u64Mod }

/-! ## Worker distribution (src/src/stressor.rs `StressRunner::run` and
src/src/stressor/download.rs `run`) -/

/-- From `StressRunner::run` in src/src/stressor.rs: the per-endpoint
concurrency share, `base + 1` for the first `concurrency % n` endpoints. -/
def client_concurrency (concurrency n idx : Nat) : Nat :=
  let base := concurrency / n
  let rem := concurrency % n
  if idx < rem then base + 1 else base

/-- Shares assigned to the `n` endpoints in order by the legacy runner. -/
def legacyShares (concurrency n : Nat) : List Nat :=
  (List.range n).map (client_concurrency concurrency n)

/-- Endpoints actually spawned by the legacy runner (index, share); endpoints
with share zero are skipped by the `continue`. -/
def legacySpawned (concurrency n : Nat) : List (Nat × Nat) :=
  ((List.range n).map (fun idx => (idx, client_concurrency concurrency n idx))).filter
    (fun p => p.2 != 0)

/-- From `run` in src/src/stressor/download.rs: every endpoint spawns
`config.concurrency` workers, with ids `idx * 10_000 + worker`. -/
def downloadModeWorkerIds (concurrency n : Nat) : List Nat :=
  (List.range n).flatMap (fun idx => (List.range concurrency).map (fun worker => idx * 10000 + worker))

/-- Per-endpoint spawn counts of the multi-mode download dispatcher. -/
def downloadModeShares (concurrency n : Nat) : List Nat :=
  (List.range n).map (fun _ => concurrency)

/-! ## Stats reporters (src/src/stressor.rs and src/src/stressor/mod.rs,
`start_stats_reporter`), `f64` arithmetic modelled over `ℚ`. -/

/-- From src/src/stressor.rs: one EMA update with `alpha = 0.3`;
`None` (first sample) seeds the EMA with the instantaneous rate. -/
def emaUpdate (prev : Option ℚ) (instant : ℚ) : ℚ :=
  match prev with
  | some p => (3 / 10) * instant + (1 - 3 / 10) * p
  | none => instant

/-- The EMA state after feeding the per-tick instantaneous rates in order
(the legacy reporter's `ema_bytes_per_sec` variable). -/
def legacyEmaSeq (instants : List ℚ) : Option ℚ :=
  instants.foldl (fun acc r => some (emaUpdate acc r)) none

/-- Legacy reporter: MB/s figure derived from the EMA value. -/
def legacyMbPerSec (ema : ℚ) : ℚ := ema / (1024 * 1024)

/-- Legacy reporter: Mbps figure derived from the EMA value. -/
def legacyMbitPerSec (ema : ℚ) : ℚ := ema * 8 / (1000 * 1000)

/-- Operation modes, from src/src/cli.rs. -/
inductive Mode where
  | download
  | tcpFlood
  | udpFlood
deriving DecidableEq, Repr

/-- From src/src/stressor/mod.rs reporter: `interval.as_secs_f64().max(1.0)`. -/
def reporterSeconds (interval : ℚ) : ℚ := max interval 1

/-- Multi-mode reporter: `mb_per_sec` computed each tick from the byte delta. -/
def reporterMbPerSec (bytesDelta interval : ℚ) : ℚ :=
  bytesDelta / reporterSeconds interval / (1024 * 1024)

/-- Multi-mode reporter: `mbit_per_sec` computed each tick. -/
def reporterMbitPerSec (bytesDelta interval : ℚ) : ℚ :=
  bytesDelta * 8 / (reporterSeconds interval * 1000000)

/-- The MB/s figure appearing in the log line emitted for each mode by the
multi-mode reporter's `match mode` (every branch logs `mb_per_sec`). -/
def reporterLoggedMb (mode : Mode) (bytesDelta interval : ℚ) : ℚ :=
  match mode with
  | .download => reporterMbPerSec bytesDelta interval
  | .tcpFlood => reporterMbPerSec bytesDelta interval
  | .udpFlood => reporterMbPerSec bytesDelta interval

/-- The per-tick MB/s figures logged over a run of byte deltas. -/
def reporterLoggedSeq (mode : Mode) (deltas : List ℚ) (interval : ℚ) : List ℚ :=
  deltas.map (fun d => reporterLoggedMb mode d interval)

/-- Modelled from the claim's words for C3: the download-mode MB/s figure as an
EMA (factor 0.3, first sample seeds) of the per-tick byte rates. -/
def claimDownloadMb (deltas : List ℚ) (interval : ℚ) : Option ℚ :=
  (legacyEmaSeq (deltas.map (fun d => d / reporterSeconds interval))).map legacyMbPerSec

/-! ## Byte-level string helpers (UTF-8, as used by Rust `str::as_bytes`,
`str::len` and `String::from_utf8_lossy`). -/

/-- UTF-8 encoding of one Unicode scalar value. -/
def utf8EncodeCharNat (n : Nat) : List Nat :=
  if n < 128 then [n]
  else if n < 2048 then [192 + n / 64, 128 + n % 64]
  else if n < 65536 then [224 + n / 4096, 128 + n / 64 % 64, 128 + n % 64]
  else [240 + n / 262144, 128 + n / 4096 % 64, 128 + n / 64 % 64, 128 + n % 64]

/-- The UTF-8 bytes of a string (Rust `str::as_bytes`; `str::len` is the
length of this list). -/
def utf8Bytes (s : String) : List Nat :=
  s.data.flatMap (fun c => utf8EncodeCharNat c.toNat)

/-- Is a byte a UTF-8 continuation byte (`10xxxxxx`)? -/
def utf8IsCont (b : Nat) : Bool := 128 ≤ b && b < 192

/-- UTF-8 validity of a byte sequence (the standard table, as enforced by
Rust's `str::from_utf8` / `Cow` UTF-8 decoding). -/
def utf8Valid : List Nat → Bool
  | [] => true
  | b :: rest =>
    if b < 128 then utf8Valid rest
    else if b < 194 then false
    else if b < 224 then
      match rest with
      | c1 :: r => utf8IsCont c1 && utf8Valid r
      | [] => false
    else if b < 240 then
      match rest with
      | c1 :: c2 :: r =>
        let lo := if b = 224 then 160 else 128
        let hi := if b = 237 then 160 else 192
        (lo ≤ c1 && c1 < hi) && utf8IsCont c2 && utf8Valid r
      | _ => false
    else if b < 245 then
      match rest with
      | c1 :: c2 :: c3 :: r =>
        let lo := if b = 240 then 144 else 128
        let hi := if b = 244 then 144 else 192
        (lo ≤ c1 && c1 < hi) && utf8IsCont c2 && utf8IsCont c3 && utf8Valid r
      | _ => false
    else false

/-- Scalar value of one decoded UTF-8 sequence (used by the lossy decoder). -/
def utf8Scalar2 (b c1 : Nat) : Nat := (b - 192) * 64 + (c1 - 128)

def utf8Scalar3 (b c1 c2 : Nat) : Nat := (b - 224) * 4096 + (c1 - 128) * 64 + (c2 - 128)

def utf8Scalar4 (b c1 c2 c3 : Nat) : Nat :=
  (b - 240) * 262144 + (c1 - 128) * 4096 + (c2 - 128) * 64 + (c3 - 128)

/-- Character from a scalar value, replacement character when out of range. -/
def charOfScalar (n : Nat) : Char :=
  if n.isValidChar then Char.ofNat n else Char.ofNat 65533

/-- Lossy UTF-8 decoding (models Rust `String::from_utf8_lossy`: valid
sequences decode, invalid bytes become U+FFFD; on invalid input the exact
number of replacement characters may differ from Rust's maximal-subpart
rule, which no claim exercises). -/
def utf8DecodeLossy : List Nat → List Char
  | [] => []
  | b :: rest =>
    if b < 128 then charOfScalar b :: utf8DecodeLossy rest
    else if b < 194 then charOfScalar 65533 :: utf8DecodeLossy rest
    else if b < 224 then
      match rest with
      | c1 :: r =>
        if utf8IsCont c1 then charOfScalar (utf8Scalar2 b c1) :: utf8DecodeLossy r
        else charOfScalar 65533 :: utf8DecodeLossy (c1 :: r)
      | [] => [charOfScalar 65533]
    else if b < 240 then
      match rest with
      | c1 :: c2 :: r =>
        let lo := if b = 224 then 160 else 128
        let hi := if b = 237 then 160 else 192
        if (lo ≤ c1 && c1 < hi) && utf8IsCont c2 then
          charOfScalar (utf8Scalar3 b c1 c2) :: utf8DecodeLossy r
        else charOfScalar 65533 :: utf8DecodeLossy (c1 :: c2 :: r)
      | [_] => [charOfScalar 65533, charOfScalar 65533]
      | [] => [charOfScalar 65533]
    else if b < 245 then
      match rest with
      | c1 :: c2 :: c3 :: r =>
        let lo := if b = 240 then 144 else 128
        let hi := if b = 244 then 144 else 192
        if (lo ≤ c1 && c1 < hi) && utf8IsCont c2 && utf8IsCont c3 then
          charOfScalar (utf8Scalar4 b c1 c2 c3) :: utf8DecodeLossy r
        else charOfScalar 65533 :: utf8DecodeLossy (c1 :: c2 :: c3 :: r)
      | [_, _] => [charOfScalar 65533, charOfScalar 65533, charOfScalar 65533]
      | [_] => [charOfScalar 65533, charOfScalar 65533]
      | [] => [charOfScalar 65533]
    else charOfScalar 65533 :: utf8DecodeLossy rest

/-- Big-endian bytes of a `u16` (Rust `u16::to_be_bytes`). -/
def be16 (p : Nat) : List Nat := [p % 65536 / 256, p % 256]

/-! ## Textual IP addresses. Models the Rust standard library's
`IpAddr: FromStr` (strict dotted-quad IPv4; RFC 4291 IPv6 with a single
`::` elision and optional trailing embedded IPv4). -/

/-- An IP address: 4 octets, or 8 16-bit groups. -/
inductive IpAddr where
  | v4 (a b c d : Nat)
  | v6 (groups : List Nat)
deriving DecidableEq, Repr

/-- Split a character list on a separator character. Like Rust `str::split`,
the empty input yields one empty piece. -/
def splitOnChar (sep : Char) : List Char → List (List Char)
  | [] => [[]]
  | x :: rest =>
    if x = sep then [] :: splitOnChar sep rest
    else
      match splitOnChar sep rest with
      | [] => [[x]]
      | piece :: pieces => (x :: piece) :: pieces

def isDigitB (c : Char) : Bool := 48 ≤ c.toNat && c.toNat ≤ 57

def isHexDigitB (c : Char) : Bool :=
  (48 ≤ c.toNat && c.toNat ≤ 57) || (97 ≤ c.toNat && c.toNat ≤ 102) ||
    (65 ≤ c.toNat && c.toNat ≤ 70)

/-- Numeric value of a decimal digit string. -/
def digitsVal (g : List Char) : Nat :=
  g.foldl (fun a c => a * 10 + (c.toNat - 48)) 0

/-- Numeric value of one hex digit. -/
def hexDigitVal (c : Char) : Nat :=
  if c.toNat ≤ 57 then c.toNat - 48
  else if c.toNat ≤ 70 then c.toNat - 55
  else c.toNat - 87

/-- Numeric value of a hex digit string. -/
def hexVal (g : List Char) : Nat :=
  g.foldl (fun a c => a * 16 + hexDigitVal c) 0

/-- One IPv4 octet: non-empty decimal digits, no leading zero, at most 255. -/
def parseOctet (g : List Char) : Option Nat :=
  match g with
  | [] => none
  | c :: rest =>
    if (c :: rest).all isDigitB then
      if c = '0' && rest ≠ [] then none
      else
        let v := digitsVal (c :: rest)
        if v ≤ 255 then some v else none
    else none

/-- Dotted-quad IPv4 literal. -/
def parseIPv4 (cs : List Char) : Option (Nat × Nat × Nat × Nat) :=
  match splitOnChar '.' cs with
  | [a, b, c, d] =>
    match parseOctet a, parseOctet b, parseOctet c, parseOctet d with
    | some x, some y, some z, some w => some (x, y, z, w)
    | _, _, _, _ => none
  | _ => none

/-- Split at the first `::`, when present. -/
def findDoubleColon : List Char → Option (List Char × List Char)
  | ':' :: ':' :: rest => some ([], rest)
  | c :: rest => (findDoubleColon rest).map (fun p => (c :: p.1, p.2))
  | [] => none

def hasDoubleColon : List Char → Bool
  | ':' :: ':' :: _ => true
  | _ :: rest => hasDoubleColon rest
  | [] => false

/-- One IPv6 group of 1 to 4 hex digits. -/
def parseHexGroup (g : List Char) : Option Nat :=
  match g with
  | [] => none
  | _ =>
    if g.length ≤ 4 && g.all isHexDigitB then some (hexVal g) else none

/-- Groups of one side of an IPv6 literal; the final group may be an embedded
IPv4 address (two groups) when `v4Last` is set. -/
def parseGroupList (v4Last : Bool) : List (List Char) → Option (List Nat)
  | [] => some []
  | [g] =>
    if v4Last && g.contains '.' then
      match parseIPv4 g with
      | some (a, b, c, d) => some [a * 256 + b, c * 256 + d]
      | none => none
    else (parseHexGroup g).map (fun v => [v])
  | g :: rest =>
    match parseHexGroup g, parseGroupList v4Last rest with
    | some v, some vs => some (v :: vs)
    | _, _ => none

/-- Groups of a non-empty side (split on single colons first). -/
def parseGroupSide (v4Last : Bool) (cs : List Char) : Option (List Nat) :=
  match cs with
  | [] => some []
  | _ => parseGroupList v4Last (splitOnChar ':' cs)

/-- IPv6 literal, producing the 8 16-bit groups. -/
def parseIPv6 (cs : List Char) : Option (List Nat) :=
  match findDoubleColon cs with
  | none =>
    match parseGroupSide true cs with
    | some gs => if gs.length = 8 then some gs else none
    | none => none
  | some (left, right) =>
    if hasDoubleColon right then none
    else
      match parseGroupSide false left, parseGroupSide true right with
      | some gl, some gr =>
        if gl.length + gr.length ≤ 7 then
          some (gl ++ List.replicate (8 - gl.length - gr.length) 0 ++ gr)
        else none
      | _, _ => none

/-- `IpAddr: FromStr`: IPv4 first, then IPv6. -/
def parseIpAddr (s : String) : Option IpAddr :=
  match parseIPv4 s.data with
  | some (a, b, c, d) => some (IpAddr.v4 a b c d)
  | none => (parseIPv6 s.data).map IpAddr.v6

/-- `Ipv6Addr::octets`: big-endian bytes of the 8 groups. -/
def v6Octets (groups : List Nat) : List Nat :=
  groups.flatMap (fun g => [g % 65536 / 256, g % 256])

/-! ## Targets and the SOCKS5 UDP datagram (src/src/stressor/mod.rs and
src/src/stressor/udp.rs). -/

/-- `SocketTarget` from src/src/stressor/mod.rs. -/
structure SocketTarget where
  host : String
  port : Nat
deriving DecidableEq, Repr

/-- Decimal digits of a natural number, with explicit fuel so the kernel
can evaluate it (the fuel is enough whenever `n < fuel`). -/
def natDigitsAux : Nat → Nat → List Char
  | 0, _ => []
  | fuel + 1, n =>
    if n < 10 then [Char.ofNat (48 + n)]
    else natDigitsAux fuel (n / 10) ++ [Char.ofNat (48 + n % 10)]

def natDigits (n : Nat) : List Char := natDigitsAux (n + 1) n

/-- Decimal rendering of a natural number (Rust `Display` for integers). -/
def natRepr (n : Nat) : String := ⟨natDigits n⟩

def SocketTarget.display (t : SocketTarget) : String :=
  t.host ++ ":" ++ natRepr t.port

/-- `Target` from src/src/stressor/mod.rs. -/
inductive Target where
  | Http (url : String)
  | Socket (t : SocketTarget)
deriving DecidableEq, Repr

/-- `build_udp_packet` from src/src/stressor/udp.rs: the SOCKS5 UDP request
header followed by the payload. -/
def build_udp_packet (target : SocketTarget) (payload : List Nat) : Except String (List Nat) :=
  let packet : List Nat := []
  let packet := packet ++ [0, 0]
  let packet := packet ++ [0]
  match parseIpAddr target.host with
  | some (IpAddr.v4 a b c d) =>
    let packet := packet ++ [1] ++ [a, b, c, d]
    .ok (packet ++ be16 target.port ++ payload)
  | some (IpAddr.v6 groups) =>
    let packet := packet ++ [4] ++ v6Octets groups
    .ok (packet ++ be16 target.port ++ payload)
  | none =>
    if 255 < (utf8Bytes target.host).length then
      .error ("Domain is too long for SOCKS5 UDP header")
    else
      let packet := packet ++ [3] ++ [(utf8Bytes target.host).length] ++ utf8Bytes target.host
      .ok (packet ++ be16 target.port ++ payload)

/-! ## Percent decoding and base64 (models of the `percent-encoding` and
`base64` crates as used in src/src/parser.rs). -/

/-- Is a byte an ASCII hex digit? -/
def isHexByte (b : Nat) : Bool :=
  (48 ≤ b && b ≤ 57) || (65 ≤ b && b ≤ 70) || (97 ≤ b && b ≤ 102)

/-- Value of an ASCII hex digit byte. -/
def hexByteVal (b : Nat) : Nat :=
  if b ≤ 57 then b - 48 else if b ≤ 70 then b - 55 else b - 87

/-- Percent decoding over bytes: `%XY` with two hex digits becomes one byte;
a `%` not followed by two hex digits passes through unchanged. -/
def percentDecode : List Nat → List Nat
  | [] => []
  | 37 :: h1 :: h2 :: rest =>
    if isHexByte h1 && isHexByte h2 then
      (hexByteVal h1 * 16 + hexByteVal h2) :: percentDecode rest
    else 37 :: percentDecode (h1 :: h2 :: rest)
  | 37 :: rest => 37 :: percentDecode rest
  | b :: rest => b :: percentDecode rest

/-- Sextet value of a byte in the standard base64 alphabet. -/
def b64StdVal (b : Nat) : Option Nat :=
  if 65 ≤ b && b ≤ 90 then some (b - 65)
  else if 97 ≤ b && b ≤ 122 then some (b - 71)
  else if 48 ≤ b && b ≤ 57 then some (b + 4)
  else if b = 43 then some 62
  else if b = 47 then some 63
  else none

/-- Sextet value of a byte in the URL-safe base64 alphabet. -/
def b64UrlVal (b : Nat) : Option Nat :=
  if 65 ≤ b && b ≤ 90 then some (b - 65)
  else if 97 ≤ b && b ≤ 122 then some (b - 71)
  else if 48 ≤ b && b ≤ 57 then some (b + 4)
  else if b = 45 then some 62
  else if b = 95 then some 63
  else none

/-- Decode base64 data (padding already stripped): full 4-sextet quanta with
a final quantum of 2 or 3 sextets; rejects non-zero trailing bits (the
crate's `decode_allow_trailing_bits = false`). -/
def b64DecodeData (f : Nat → Option Nat) : List Nat → Option (List Nat)
  | [] => some []
  | [c1, c2] =>
    match f c1, f c2 with
    | some v1, some v2 => if v2 % 16 = 0 then some [v1 * 4 + v2 / 16] else none
    | _, _ => none
  | [c1, c2, c3] =>
    match f c1, f c2, f c3 with
    | some v1, some v2, some v3 =>
      if v3 % 4 = 0 then some [v1 * 4 + v2 / 16, v2 % 16 * 16 + v3 / 4] else none
    | _, _, _ => none
  | c1 :: c2 :: c3 :: c4 :: rest =>
    match f c1, f c2, f c3, f c4, b64DecodeData f rest with
    | some v1, some v2, some v3, some v4, some bs =>
      some ([v1 * 4 + v2 / 16, v2 % 16 * 16 + v3 / 4, v3 % 4 * 64 + v4] ++ bs)
    | _, _, _, _, _ => none
  | [_] => none

/-- `general_purpose::STANDARD.decode`: canonical `=` padding required. -/
def b64DecodeStd (input : List Nat) : Option (List Nat) :=
  if input = [] then some []
  else if input.length % 4 ≠ 0 then none
  else
    let pad := (input.reverse.takeWhile (fun b => b == 61)).length
    if 2 < pad then none
    else
      let data := input.take (input.length - pad)
      if data.contains 61 then none
      else b64DecodeData b64StdVal data

/-- `general_purpose::URL_SAFE_NO_PAD.decode`: no padding allowed. -/
def b64DecodeUrl (input : List Nat) : Option (List Nat) :=
  if input.contains 61 then none
  else if input.length % 4 = 1 then none
  else b64DecodeData b64UrlVal input

/-- `auto_decode` from src/src/parser.rs: percent-decode (keeping the result
only when it is valid UTF-8), then try standard base64, then URL-safe
base64, else the text itself; on non-UTF-8 percent-decodings the same
base64 attempts run on the raw input. Always succeeds (every `return` in
the source is `Ok`). -/
def auto_decode (input : List Nat) : List Nat :=
  let pd := percentDecode input
  if utf8Valid pd then
    match b64DecodeStd pd with
    | some bytes => bytes
    | none =>
      match b64DecodeUrl pd with
      | some bytes => bytes
      | none => pd
  else
    match b64DecodeStd input with
    | some bytes => bytes
    | none =>
      match b64DecodeUrl input with
      | some bytes => bytes
      | none => input

/-! ## URL model. Models the `url` crate's `Url::parse` for the
`scheme://[userinfo@]host[:port][/path][?query][#fragment]` shapes this
program feeds it: components are kept raw (no percent-(re)encoding of
userinfo or host), hosts are not case-folded, and `query_pairs` performs
`form_urlencoded` decoding. -/

structure UrlParts where
  scheme : String
  username : String
  password : Option String
  host : Option String
  port : Option Nat
  queryPairs : List (String × String)
  fragment : Option String
deriving DecidableEq, Repr

/-- Split at the first occurrence of a character. -/
def splitAtFirst (sep : Char) : List Char → Option (List Char × List Char)
  | [] => none
  | c :: rest =>
    if c = sep then some ([], rest)
    else (splitAtFirst sep rest).map (fun p => (c :: p.1, p.2))

/-- Split at the last occurrence of a character (Rust `str::rsplit_once`). -/
def rsplitOnceChar (sep : Char) (cs : List Char) : Option (List Char × List Char) :=
  match splitAtFirst sep cs.reverse with
  | none => none
  | some (revAfter, revBefore) => some (revBefore.reverse, revAfter.reverse)

def isAlphaB (c : Char) : Bool :=
  (65 ≤ c.toNat && c.toNat ≤ 90) || (97 ≤ c.toNat && c.toNat ≤ 122)

def isSchemeCharB (c : Char) : Bool :=
  isAlphaB c || isDigitB c || c = '+' || c = '-' || c = '.'

/-- `form_urlencoded` decoding of one query key or value: `+` means space,
percent-escapes decode, the result is read as (lossy) UTF-8. -/
def formDecode (cs : List Char) : String :=
  let cs2 := cs.map (fun c => if c = '+' then ' ' else c)
  ⟨utf8DecodeLossy (percentDecode (cs2.flatMap (fun c => utf8EncodeCharNat c.toNat)))⟩

/-- Decode the query string into key/value pairs (`Url::query_pairs`). -/
def queryPairsOf (q : List Char) : List (String × String) :=
  ((splitOnChar '&' q).filter (fun p => p ≠ [])).map (fun piece =>
    match splitAtFirst '=' piece with
    | some (k, v) => (formDecode k, formDecode v)
    | none => (formDecode piece, ""))

/-- Split `host[:port]`; a bracketed IPv6 host keeps its brackets, as
`Url::host_str` does. -/
def splitHostPort (hp : List Char) : Option (List Char × List Char) :=
  match hp with
  | '[' :: rest =>
    let inner := rest.takeWhile (fun c => c ≠ ']')
    match rest.dropWhile (fun c => c ≠ ']') with
    | [] => none
    | _ :: after =>
      match after with
      | [] => some ('[' :: inner ++ [']'], [])
      | ':' :: ps => some ('[' :: inner ++ [']'], ps)
      | _ => none
  | _ =>
    match splitAtFirst ':' hp with
    | none => some (hp, [])
    | some (h, p) => some (h, p)

/-- `Url::parse`, modelled as described above. The port must be numeric and
fit in `u16` or the whole parse fails; an absent or empty port is `none`.
URLs without `//` after the scheme parse as opaque (no host). -/
def urlParse (s : String) : Option UrlParts :=
  match splitAtFirst ':' s.data with
  | none => none
  | some (schemeCs, afterColon) =>
    match schemeCs with
    | [] => none
    | c0 :: _ =>
      if ¬ (isAlphaB c0 && schemeCs.all isSchemeCharB) then none
      else
        let scheme : String := ⟨schemeCs.map Char.toLower⟩
        match afterColon with
        | '/' :: '/' :: rest =>
          let auth := rest.takeWhile (fun c => c ≠ '/' && c ≠ '?' && c ≠ '#')
          let tail0 := rest.drop auth.length
          let frag : Option (List Char) :=
            (splitAtFirst '#' tail0).map (fun p => p.2)
          let beforeHash : List Char :=
            match splitAtFirst '#' tail0 with
            | some (b, _) => b
            | none => tail0
          let query : List Char :=
            match splitAtFirst '?' beforeHash with
            | some (_, q) => q
            | none => []
          let (userinfo, hostport) :=
            match rsplitOnceChar '@' auth with
            | some (ui, hp) => (some ui, hp)
            | none => (none, auth)
          let (username, password) :=
            match userinfo with
            | none => (([] : List Char), (none : Option (List Char)))
            | some ui =>
              match splitAtFirst ':' ui with
              | some (u, p) => (u, some p)
              | none => (ui, none)
          match splitHostPort hostport with
          | none => none
          | some (hostCs, portCs) =>
            let port? : Option (Option Nat) :=
              match portCs with
              | [] => some none
              | _ =>
                if portCs.all isDigitB then
                  let v := digitsVal portCs
                  if v ≤ 65535 then some (some v) else none
                else none
            match port? with
            | none => none
            | some port =>
              some { scheme := scheme, username := ⟨username⟩,
                     password := password.map (fun p => (⟨p⟩ : String)),
                     host := some ⟨hostCs⟩, port := port,
                     queryPairs := queryPairsOf query,
                     fragment := frag.map (fun f => (⟨f⟩ : String)) }
        | _ =>
          some { scheme := scheme, username := "", password := none,
                 host := none, port := none, queryPairs := [], fragment := none }

/-! ## Proxy URI parser (src/src/parser.rs). -/

def isWsB (c : Char) : Bool := c.isWhitespace

/-- Rust `str::trim`. -/
def trimChars (cs : List Char) : List Char :=
  ((cs.dropWhile isWsB).reverse.dropWhile isWsB).reverse

def trimStr (s : String) : String := ⟨trimChars s.data⟩

/-- Rust `str::starts_with` for a string pattern. -/
def strStartsWith (s p : String) : Bool := p.data.isPrefixOf s.data

/-- Rust `str::trim_matches` with a single character pattern. -/
def trimMatches (q : Char) (cs : List Char) : List Char :=
  ((cs.dropWhile (fun c => c = q)).reverse.dropWhile (fun c => c = q)).reverse

/-- Canonical model of a `HashMap<String, String>`: later inserts of an
existing key replace its value in place, new keys append. -/
def mapInsert (m : List (String × String)) (k v : String) : List (String × String) :=
  if (m.find? (fun p => p.1 == k)).isSome then
    m.map (fun p => if p.1 == k then (k, v) else p)
  else m ++ [(k, v)]

/-- `collect::<HashMap<_, _>>()` over the query pairs (last value wins). -/
def mapCollect (pairs : List (String × String)) : List (String × String) :=
  pairs.foldl (fun m p => mapInsert m p.1 p.2) []

/-- `HashMap::get`. -/
def mapGet (m : List (String × String)) (k : String) : Option String :=
  (m.find? (fun p => p.1 == k)).map (fun p => p.2)

/-- Rust `str::parse::<i32>().ok()`. -/
def parseI32 (s : String) : Option Int :=
  let (neg, ds) :=
    match s.data with
    | '+' :: rest => (false, rest)
    | '-' :: rest => (true, rest)
    | cs => (false, cs)
  match ds with
  | [] => none
  | _ =>
    if ds.all isDigitB then
      let v := digitsVal ds
      if neg then (if v ≤ 2147483648 then some (-(v : Int)) else none)
      else (if v ≤ 2147483647 then some (v : Int) else none)
    else none

/-- Split a string on a character, keeping empty pieces (Rust `str::split`). -/
def splitStr (sep : Char) (s : String) : List String :=
  (splitOnChar sep s.data).map (fun p => (⟨p⟩ : String))

/-- `VlessConfig` from src/src/parser.rs. The `spider_x` field exists in the
config-generator snapshot of this struct (src/src/config.rs reads it); the
parser snapshot never sets it. -/
structure VlessConfig where
  id : String
  host : String
  port : Nat
  network : String
  security : String
  sni : Option String
  flow : Option String
  public_key : Option String
  short_id : Option String
  fingerprint : Option String
  header_type : Option String
  path : Option String
  host_header : Option String
  mode : Option String
  extra_xhttp : Option String
  service_name : Option String
  multi_mode : Bool
  idle_timeout : Option Int
  windows_size : Option Int
  allow_insecure : Bool
  alpn : List String
  level : Option Int
  raw : String
  spider_x : Option String
deriving DecidableEq, Repr

/-- `VlessConfig::parse`. -/
def VlessConfig.parse (vless_url : String) : Except String VlessConfig :=
  if ¬ strStartsWith vless_url ("vless://") then
    .error ("Invalid VLESS URL: must start with vless scheme")
  else
    match urlParse vless_url with
    | none => .error ("Failed to parse VLESS URL")
    | some u =>
      if u.username = "" then .error ("VLESS URL missing user ID")
      else
        match u.host with
        | none => .error ("VLESS URL missing host")
        | some host =>
          let port := u.port.getD 443
          if port = 0 ∨ port = 1 then .error ("skipping port")
          else
            let params := mapCollect u.queryPairs
            let config : VlessConfig :=
              { id := u.username
                host := host
                port := port
                network := (mapGet params ("type")).getD ("tcp")
                security := (mapGet params ("security")).getD ("none")
                sni := mapGet params ("sni")
                flow := mapGet params ("flow")
                public_key := mapGet params ("pbk")
                short_id := mapGet params ("sid")
                fingerprint := mapGet params ("fp")
                header_type := mapGet params ("headerType")
                path := mapGet params ("path")
                host_header := mapGet params ("host")
                mode := none
                extra_xhttp := none
                service_name := none
                multi_mode := (mapGet params ("multiMode")).map (fun v => v == "true") |>.getD false
                idle_timeout := (mapGet params ("idleTimeout")).bind parseI32
                windows_size := (mapGet params ("windowSize")).bind parseI32
                allow_insecure := (mapGet params ("allowInsecure")).map (fun v => v == "true") |>.getD false
                alpn := (mapGet params ("alpn")).map (splitStr ',') |>.getD []
                level := (mapGet params ("level")).bind parseI32
                raw := vless_url
                spider_x := none }
            let config :=
              if config.network = "xhttp" then
                { config with
                  mode := mapGet params ("mode")
                  extra_xhttp := (mapGet params ("extra")).map (fun e => (⟨trimMatches '"' e.data⟩ : String)) }
              else config
            let config :=
              if config.network = "grpc" then
                { config with service_name := mapGet params ("serviceName") }
              else config
            .ok config

/-- `VlessConfig::validate`. -/
def VlessConfig.validate (c : VlessConfig) : Except String Unit :=
  if c.id = "" then .error ("VLESS config missing ID")
  else if c.host = "" then .error ("VLESS config missing host")
  else if c.port = 0 then .error ("VLESS config has invalid port")
  else if ¬ (c.security = "none" ∨ c.security = "tls" ∨ c.security = "reality") then
    .error ("Unsupported security type")
  else if ¬ (c.network = "tcp" ∨ c.network = "ws" ∨ c.network = "grpc" ∨
      c.network = "h2" ∨ c.network = "xhttp" ∨ c.network = "httpupgrade") then
    .error ("Unsupported network type")
  else if c.security = "reality" then
    match c.public_key with
    | none => .error ("Reality security requires public key")
    | some _ =>
      match c.short_id with
      | none => .error ("Reality security requires short ID")
      | some _ => .ok ()
  else .ok ()

/-- `TrojanConfig` from src/src/parser.rs. -/
structure TrojanConfig where
  name : Option String
  password : String
  server : String
  port : Nat
  security : Option String
  network : Option String
  flow : Option String
  path : Option String
  host : Option String
  sni : Option String
  fingerprint : Option String
  allow_insecure : Bool
  alpn : List String
  service_name : Option String
  multi_mode : Bool
  idle_timeout : Option Int
  windows_size : Option Int
  settings : List (String × String)
deriving DecidableEq, Repr

/-- `TrojanConfig::parse`. -/
def TrojanConfig.parse (url_str : String) : Except String TrojanConfig :=
  if ¬ strStartsWith url_str ("trojan://") then
    .error ("Invalid Trojan URL: must start with trojan scheme")
  else
    match urlParse url_str with
    | none => .error ("Failed to parse Trojan URL")
    | some u =>
      if u.username = "" then .error ("Trojan URL missing password")
      else
        match u.host with
        | none => .error ("Trojan URL missing host")
        | some host =>
          match u.port with
          | none => .error ("Trojan URL missing port")
          | some port =>
            if port = 0 ∨ port = 1 then .error ("skipping port")
            else
              let qp := mapCollect u.queryPairs
              .ok
                { name := if (u.fragment.getD "") = "" then none else u.fragment
                  password := u.username
                  server := host
                  port := port
                  security := mapGet qp ("security")
                  network := mapGet qp ("type")
                  flow := mapGet qp ("flow")
                  path := mapGet qp ("path")
                  host := mapGet qp ("host")
                  sni := mapGet qp ("sni")
                  fingerprint := mapGet qp ("fp")
                  allow_insecure := (mapGet qp ("allowInsecure")).map (fun v => v == "true") |>.getD false
                  alpn := (mapGet qp ("alpn")).map (splitStr ',') |>.getD []
                  service_name := mapGet qp ("serviceName")
                  multi_mode := (mapGet qp ("multiMode")).map (fun v => v == "true") |>.getD false
                  idle_timeout := (mapGet qp ("idleTimeout")).bind parseI32
                  windows_size := (mapGet qp ("windowSize")).bind parseI32
                  settings := qp }

/-- `ShadowsocksConfig` from src/src/parser.rs. -/
structure ShadowsocksConfig where
  name : Option String
  method : String
  password : String
  server : String
  port : Nat
  settings : List (String × String)
deriving DecidableEq, Repr

/-- The `userinfo` reconstruction in `ShadowsocksConfig::parse`:
`username:password` when a password is present, else the username. -/
def ssUserinfoOf (u : UrlParts) : String :=
  match u.password with
  | some pw => u.username ++ ":" ++ pw
  | none => u.username

/-- `ShadowsocksConfig::parse`. -/
def ShadowsocksConfig.parse (url_str : String) : Except String ShadowsocksConfig :=
  if ¬ strStartsWith url_str ("ss://") then
    .error ("Invalid Shadowsocks URL: must start with ss scheme")
  else
    match urlParse url_str with
    | none => .error ("Failed to parse Shadowsocks URL")
    | some u =>
      let userinfo : String := ssUserinfoOf u
      if userinfo = "" then .error ("Shadowsocks URL missing userinfo")
      else
        let decoded := auto_decode (utf8Bytes userinfo)
        let decoded_str := utf8DecodeLossy decoded
        match splitAtFirst ':' decoded_str with
        | none => .error ("invalid method password format")
        | some (m, p) =>
          match u.host with
          | none => .error ("Shadowsocks URL missing host")
          | some host =>
            match u.port with
            | none => .error ("Shadowsocks URL missing port")
            | some port =>
              if port = 0 ∨ port = 1 then .error ("skipping port")
              else
                .ok
                  { name := if (u.fragment.getD "") = "" then none else u.fragment
                    method := ⟨m⟩
                    password := ⟨p⟩
                    server := host
                    port := port
                    settings := mapCollect u.queryPairs }

/-- `ProxyConfig` from src/src/parser.rs. -/
inductive ProxyConfig where
  | Vless (c : VlessConfig)
  | Trojan (c : TrojanConfig)
  | Shadowsocks (c : ShadowsocksConfig)
deriving DecidableEq, Repr

/-- `parse_proxy_url` from src/src/parser.rs. -/
def parse_proxy_url (proxy_url : String) : Except String ProxyConfig :=
  let proxy_url := trimStr proxy_url
  if proxy_url = "" then .error ("empty proxy URL")
  else
    match urlParse proxy_url with
    | none => .error ("error parsing proxy URL")
    | some u =>
      if u.scheme = "" then .error ("protocol is missing in URL")
      else if u.scheme = "vless" then
        match VlessConfig.parse proxy_url with
        | .error e => .error e
        | .ok cfg =>
          match cfg.validate with
          | .error e => .error e
          | .ok _ => .ok (ProxyConfig.Vless cfg)
      else if u.scheme = "trojan" then
        (TrojanConfig.parse proxy_url).map ProxyConfig.Trojan
      else if u.scheme = "ss" then
        (ShadowsocksConfig.parse proxy_url).map ProxyConfig.Shadowsocks
      else .error ("unsupported protocol")

/-- Rust `str::lines`: split on newlines, dropping one trailing `\r` per
line and ignoring a final empty piece after a trailing newline. -/
def linesOf (s : String) : List String :=
  let pieces := splitOnChar '\n' s.data
  let pieces := if pieces.getLast? = some [] then pieces.dropLast else pieces
  pieces.map (fun cs =>
    match cs.getLast? with
    | some c => if c = '\r' then (⟨cs.dropLast⟩ : String) else ⟨cs⟩
    | none => (⟨cs⟩ : String))

/-- The line loop of `parse_proxy_list`: trim, skip blanks and `#` comments,
keep successful parses in order, drop (log) failures. -/
def parseProxyLines : List String → List ProxyConfig
  | [] => []
  | line :: rest =>
    let line := trimStr line
    if line = "" ∨ strStartsWith line ("#") then parseProxyLines rest
    else
      match parse_proxy_url line with
      | .ok cfg => cfg :: parseProxyLines rest
      | .error _ => parseProxyLines rest

/-- `parse_proxy_list` from src/src/parser.rs. -/
def parse_proxy_list (content : String) : Except String (List ProxyConfig) :=
  let configs := parseProxyLines (linesOf content)
  if configs = [] then .error ("No valid proxy configurations found")
  else .ok configs

/-- Spec-side characterization of the line handling: independent per-line
parses assembled with `filterMap`. -/
def proxyLineResults (content : String) : List ProxyConfig :=
  (linesOf content).filterMap (fun l =>
    let t := trimStr l
    if t = "" ∨ strStartsWith t ("#") then none
    else (parse_proxy_url t).toOption)

/-- Protocol tag of a parsed record (0 = VLESS, 1 = Trojan, 2 = Shadowsocks). -/
def protocolIndex : ProxyConfig → Nat
  | .Vless _ => 0
  | .Trojan _ => 1
  | .Shadowsocks _ => 2

/-! ## Stream settings generation (src/src/config.rs,
`ConfigGenerator::build_vless_trojan_stream_settings`). -/

structure TlsSettings where
  allowInsecure : Bool
  serverName : Option String
  fingerprint : Option String
deriving DecidableEq, Repr

structure RealitySettings where
  serverName : String
  publicKey : String
  shortId : String
  fingerprint : String
  spiderX : Option String
deriving DecidableEq, Repr

structure WsSettings where
  path : Option String
  hostHeader : Option String
deriving DecidableEq, Repr

/-- The `streamSettings` JSON object: `network` and `security` are always
present; the nested settings objects appear only when inserted. -/
structure StreamSettings where
  network : String
  security : String
  tlsSettings : Option TlsSettings
  realitySettings : Option RealitySettings
  wsSettings : Option WsSettings
  grpcServiceName : Option String
deriving DecidableEq, Repr

/-- `build_vless_trojan_stream_settings` from src/src/config.rs. -/
def build_vless_trojan_stream_settings (vless : Option VlessConfig)
    (trojan : Option TrojanConfig) : Except String StreamSettings :=
  let common : String × String × Option String × Option String × Option String :=
    match vless with
    | some v => (v.network, v.security, v.public_key, v.short_id, v.fingerprint)
    | none =>
      match trojan with
      | some t => (t.network.getD ("tcp"), t.security.getD ("none"), none, none, t.fingerprint)
      | none => ("tcp", "none", none, none, none)
  match common with
  | (network, security, public_key, short_id, fingerprint) =>
    let base : StreamSettings :=
      { network := network, security := security, tlsSettings := none,
        realitySettings := none, wsSettings := none, grpcServiceName := none }
    let afterSecurity : Except String StreamSettings :=
      if security = "tls" then
        let tlsTriple : Bool × String × Option String :=
          match vless with
          | some v => (v.allow_insecure, v.sni.getD v.host, v.fingerprint)
          | none =>
            match trojan with
            | some t => (t.allow_insecure, t.sni.getD t.server, t.fingerprint)
            | none => (false, "", none)
        match tlsTriple with
        | (allow_insecure, server_name, fp) =>
          let tls : TlsSettings :=
            { allowInsecure := allow_insecure
              serverName := if server_name = "" then none else some server_name
              fingerprint := fp }
          .ok { base with tlsSettings := some tls }
      else if security = "reality" then
        match vless with
        | some v =>
          match public_key with
          | none => .error ("Reality requires public key")
          | some pk =>
            match short_id with
            | none => .error ("Reality requires short ID")
            | some sid =>
              let rs : RealitySettings :=
                { serverName := v.sni.getD v.host
                  publicKey := pk
                  shortId := sid
                  fingerprint := fingerprint.getD ("chrome")
                  spiderX := v.spider_x }
              .ok { base with realitySettings := some rs }
        | none => .error ("Reality security is only supported for VLESS")
      else if security = "none" then .ok base
      else .error ("Unsupported security type")
    match afterSecurity with
    | .error e => .error e
    | .ok ss =>
      let ss :=
        if network = "ws" then
          match vless with
          | some v => { ss with wsSettings := some { path := v.path, hostHeader := v.host_header } }
          | none =>
            match trojan with
            | some t => { ss with wsSettings := some { path := t.path, hostHeader := t.host } }
            | none => ss
        else if network = "grpc" then
          match vless with
          | some v =>
            match v.service_name with
            | some nm => { ss with grpcServiceName := some nm }
            | none => ss
          | none =>
            match trojan with
            | some t =>
              match t.service_name with
              | some nm => { ss with grpcServiceName := some nm }
              | none => ss
            | none => ss
        else ss
      .ok ss

/-! ## Target resolution (src/src/stressor/mod.rs). -/

/-- `parse_http_target`: any URL with scheme `http` or `https`, kept verbatim. -/
def parse_http_target (token : String) : Except String Target :=
  match urlParse token with
  | none => .error ("Invalid HTTP target")
  | some u =>
    if u.scheme = "http" ∨ u.scheme = "https" then .ok (Target.Http token)
    else .error ("Unsupported scheme for HTTP target")

/-- Rust `str::parse::<u16>().ok()`: optional leading `+`, decimal digits,
value at most 65535 (checked arithmetic rejects anything larger). -/
def parseU16Digits (ds : List Char) : Option Nat :=
  match ds with
  | [] => none
  | _ =>
    if ds.all isDigitB then
      if digitsVal ds ≤ 65535 then some (digitsVal ds) else none
    else none

def parseU16 (cs : List Char) : Option Nat :=
  parseU16Digits (if cs.head? = some '+' then cs.drop 1 else cs)

/-- The host/port split at the top of `parse_socket_target`: bracketed IPv6
`[addr]:port` (first `]` closes the host) or `rsplit_once(':')`. -/
def socketHostPort (cs : List Char) : Except String (List Char × List Char) :=
  if cs.head? = some '[' then
    match (cs.drop 1).dropWhile (fun c => c ≠ ']') with
    | [] => .error ("Invalid IPv6 host syntax")
    | _ :: rest2 =>
      match rest2 with
      | ':' :: ps => .ok ((cs.drop 1).takeWhile (fun c => c ≠ ']'), ps)
      | _ => .error ("Expected port delimiter for IPv6 host")
  else
    match rsplitOnceChar ':' cs with
    | some (h, p) => .ok (h, p)
    | none => .error ("Socket target must be in host:port format")

/-- `parse_socket_target` from src/src/stressor/mod.rs. -/
def parse_socket_target (token : String) : Except String Target :=
  match socketHostPort token.data with
  | .error e => .error e
  | .ok (host, portStr) =>
    if host = [] then .error ("Socket target missing host")
    else
      match parseU16 portStr with
      | none => .error ("Invalid port in socket target")
      | some port => .ok (Target.Socket { host := ⟨host⟩, port := port })

/-- The token loop of `parse_target_list`: split on `,`, trim, skip empty
tokens, parse each per mode, propagating the first error. -/
def parseTargetTokens (mode : Mode) : List (List Char) → Except String (List Target)
  | [] => .ok []
  | chunk :: rest =>
    let token := trimChars chunk
    if token = [] then parseTargetTokens mode rest
    else
      match (match mode with
             | .download => parse_http_target ⟨token⟩
             | .tcpFlood => parse_socket_target ⟨token⟩
             | .udpFlood => parse_socket_target ⟨token⟩) with
      | .error e => .error e
      | .ok t =>
        match parseTargetTokens mode rest with
        | .error e => .error e
        | .ok ts => .ok (t :: ts)

/-- `parse_target_list` from src/src/stressor/mod.rs. -/
def parse_target_list (raw : String) (mode : Mode) : Except String (List Target) :=
  match parseTargetTokens mode (splitOnChar ',' raw.data) with
  | .error e => .error e
  | .ok [] => .error ("No targets parsed from input")
  | .ok ts => .ok ts

/-- `join(xs, ",")`: comma join of target tokens. -/
def joinComma : List String → String
  | [] => ""
  | [x] => x
  | x :: rest => x ++ "," ++ joinComma rest

/-- Rendering a parsed target back to a token (`Http` keeps the URL string;
`Socket` uses `SocketTarget::display`). -/
def renderTarget : Target → String
  | .Http url => url
  | .Socket t => t.display

/-! ## Concrete records used in the theorems below. -/

/-- A VLESS record with port 1 and otherwise valid fields. -/
def vlessPortOne : VlessConfig :=
  { id := "id", host := "h", port := 1, network := "tcp", security := "none",
    sni := none, flow := none, public_key := none, short_id := none,
    fingerprint := none, header_type := none, path := none, host_header := none,
    mode := none, extra_xhttp := none, service_name := none, multi_mode := false,
    idle_timeout := none, windows_size := none, allow_insecure := false,
    alpn := [], level := none, raw := "", spider_x := none }

/-- The record produced by parsing a VLESS URI with no explicit port. -/
def vlessDefaultPortParsed : VlessConfig :=
  { id := "user-id", host := "example.com", port := 443, network := "tcp",
    security := "none", sni := none, flow := none, public_key := none,
    short_id := none, fingerprint := none, header_type := none, path := none,
    host_header := none, mode := none, extra_xhttp := none, service_name := none,
    multi_mode := false, idle_timeout := none, windows_size := none,
    allow_insecure := false, alpn := [], level := none,
    raw := "vless://user-id@example.com?type=tcp", spider_x := none }

/-- A reality VLESS record whose `pbk` query value was the empty string:
`validate` accepts it (it only checks presence). -/
def realityEmptyPk : VlessConfig :=
  { id := "uuid", host := "h", port := 443, network := "tcp", security := "reality",
    sni := none, flow := none, public_key := some "", short_id := some "abc",
    fingerprint := none, header_type := none, path := none, host_header := none,
    mode := none, extra_xhttp := none, service_name := none, multi_mode := false,
    idle_timeout := none, windows_size := none, allow_insecure := false,
    alpn := [], level := none, raw := "", spider_x := none }

/-- A valid reality VLESS record with non-empty key material. -/
def realityOkRecord : VlessConfig :=
  { id := "uuid", host := "server.example", port := 443, network := "tcp",
    security := "reality", sni := some "sni.example", flow := none,
    public_key := some "PK", short_id := some "42", fingerprint := none,
    header_type := none, path := none, host_header := none, mode := none,
    extra_xhttp := none, service_name := none, multi_mode := false,
    idle_timeout := none, windows_size := none, allow_insecure := false,
    alpn := [], level := none, raw := "", spider_x := none }

/-- A Trojan record carrying `security=reality`. -/
def trojanRealityRecord : TrojanConfig :=
  { name := none, password := "pw", server := "t.example", port := 443,
    security := some "reality", network := none, flow := none, path := none,
    host := none, sni := none, fingerprint := none, allow_insecure := false,
    alpn := [], service_name := none, multi_mode := false, idle_timeout := none,
    windows_size := none, settings := [] }

/-- Modelled from the claim's words for C6: try "plain text,
percent-encoding, standard base64, and URL-safe base64 in that order,
taking the first decoding that applies"; plain text always applies, so this
order leaves every input unchanged. -/
def auto_decode_claim_order (input : List Nat) : List Nat := input

/-- The list-parse example content of C7. -/
def c7Content : String := "# c\nvless://id@h:443?type=tcp\nvmess://ignored\nss://m:p@h:8388"

/-- The records produced for `c7Content`: the comment line is skipped, the
vmess line fails (unsupported protocol) and is dropped. -/
def c7Records : List ProxyConfig :=
  [ProxyConfig.Vless
    { id := "id", host := "h", port := 443, network := "tcp", security := "none",
      sni := none, flow := none, public_key := none, short_id := none,
      fingerprint := none, header_type := none, path := none, host_header := none,
      mode := none, extra_xhttp := none, service_name := none, multi_mode := false,
      idle_timeout := none, windows_size := none, allow_insecure := false,
      alpn := [], level := none, raw := "vless://id@h:443?type=tcp", spider_x := none },
   ProxyConfig.Shadowsocks
    { name := none, method := "m", password := "p", server := "h", port := 8388,
      settings := [] }]

/-- Canonical socket-target form for the round-trip law: non-empty host not
opening a bracket, no leading whitespace, no comma, and a `u16` port. -/
def socketCanon (t : SocketTarget) : Bool :=
  (t.host.data != []) && (t.host.data.head? != some '[') &&
  (match t.host.data.head? with
   | some c => !isWsB c
   | none => true) &&
  (!t.host.data.contains ',') && (decide (t.port ≤ 65535))

/-- Canonical HTTP-target token for the round-trip law: non-empty, already
trimmed, comma-free, and a URL with scheme `http` or `https`. -/
def httpCanon (tok : String) : Bool :=
  (tok.data != []) && (trimChars tok.data == tok.data) && (!tok.data.contains ',') &&
  (match urlParse tok with
   | some u => u.scheme == "http" || u.scheme == "https"
   | none => false)

/-! ## Helper lemmas. -/

theorem rangeSumIf_le (base rem : Nat) :
    ∀ n, n ≤ rem →
      (((List.range n).map (fun i => if i < rem then base + 1 else base)).sum) = n * (base + 1) := by
  intro n
  induction n with
  | zero => intro _; simp
  | succ k ih =>
    intro h
    rw [List.range_succ, List.map_append, List.sum_append, ih (by omega)]
    simp only [List.map_cons, List.map_nil, List.sum_cons, List.sum_nil]
    rw [if_pos (by omega)]
    ring

theorem rangeSumIf (base rem : Nat) :
    ∀ n, rem ≤ n →
      (((List.range n).map (fun i => if i < rem then base + 1 else base)).sum) = n * base + rem := by
  intro n
  induction n with
  | zero => intro h; simp; omega
  | succ k ih =>
    intro h
    rw [List.range_succ, List.map_append, List.sum_append]
    by_cases hk : rem ≤ k
    · rw [ih hk]
      simp only [List.map_cons, List.map_nil, List.sum_cons, List.sum_nil]
      rw [if_neg (by omega)]
      ring
    · have hrem : rem = k + 1 := by omega
      subst hrem
      rw [rangeSumIf_le base (k + 1) k (by omega)]
      simp only [List.map_cons, List.map_nil, List.sum_cons, List.sum_nil]
      rw [if_pos (by omega)]
      ring

theorem legacyShares_sum (c n : Nat) (h : 0 < n) : (legacyShares c n).sum = c := by
  have hrem : c % n ≤ n := le_of_lt (Nat.mod_lt _ h)
  have hs : legacyShares c n =
      (List.range n).map (fun i => if i < c % n then c / n + 1 else c / n) := by
    unfold legacyShares client_concurrency
    rfl
  rw [hs, rangeSumIf (c / n) (c % n) n hrem]
  exact Nat.div_add_mod c n

theorem filterSndSum (l : List (Nat × Nat)) :
    ((l.filter (fun p => p.2 != 0)).map Prod.snd).sum = (l.map Prod.snd).sum := by
  induction l with
  | nil => rfl
  | cons a t ih =>
    by_cases h : a.2 = 0
    · simp [List.filter_cons, h, ih]
    · simp [List.filter_cons, h, ih]

theorem legacySpawned_sum (c n : Nat) (h : 0 < n) :
    ((legacySpawned c n).map Prod.snd).sum = c := by
  unfold legacySpawned
  rw [filterSndSum]
  rw [List.map_map]
  have : (Prod.snd ∘ fun idx => (idx, client_concurrency c n idx)) = client_concurrency c n := rfl
  rw [this]
  exact legacyShares_sum c n h

/-! ## Claim theorems. -/

/-- C9: each `SharedCounters` recording operation changes only its own
counters and leaves the others unchanged: `record_success` adds 1 only to
`success_events`, `record_failure` adds 1 only to `failure_events`,
`record_bytes n` adds `n` only to `bytes_transferred`, and
`record_packet len` adds 1 to `success_events` and `packets_sent` and `len`
to `bytes_transferred` while never changing `failure_events` (all additions
wrap modulo 2^64, as `u64::fetch_add` does). -/
theorem C9_counters_frame (c : SharedCounters) (n len : Nat) :
    (c.record_success.success_events = (c.success_events + 1) % u64Mod ∧
      c.record_success.failure_events = c.failure_events ∧
      c.record_success.bytes_transferred = c.bytes_transferred ∧
      c.record_success.packets_sent = c.packets_sent) ∧
    (c.record_failure.failure_events = (c.failure_events + 1) % u64Mod ∧
      c.record_failure.success_events = c.success_events ∧
      c.record_failure.bytes_transferred = c.bytes_transferred ∧
      c.record_failure.packets_sent = c.packets_sent) ∧
    ((c.record_bytes n).bytes_transferred = (c.bytes_transferred + n) % u64Mod ∧
      (c.record_bytes n).success_events = c.success_events ∧
      (c.record_bytes n).failure_events = c.failure_events ∧
      (c.record_bytes n).packets_sent = c.packets_sent) ∧
    ((c.record_packet len).success_events = (c.success_events + 1) % u64Mod ∧
      (c.record_packet len).packets_sent = (c.packets_sent + 1) % u64Mod ∧
      (c.record_packet len).bytes_transferred = (c.bytes_transferred + len) % u64Mod ∧
      (c.record_packet len).failure_events = c.failure_events) :=
  ⟨⟨rfl, rfl, rfl, rfl⟩, ⟨rfl, rfl, rfl, rfl⟩, ⟨rfl, rfl, rfl, rfl⟩, ⟨rfl, rfl, rfl, rfl⟩⟩

/-- C2 counterexample: the multi-mode download dispatcher
(src/src/stressor/download.rs) does not split the concurrency: with
`concurrency = 10` and 4 endpoints it assigns 10 workers to every endpoint
(40 total), not the claimed shares `[3, 3, 2, 2]` summing to 10. -/
theorem C2_download_split_counterexample :
    downloadModeShares 10 4 = [10, 10, 10, 10] ∧
    (downloadModeWorkerIds 10 4).length = 40 ∧
    (decide (downloadModeShares 10 4 = [3, 3, 2, 2])) = false ∧
    (decide ((downloadModeWorkerIds 10 4).length = 10)) = false := by
  refine ⟨by decide, by decide, by decide, by decide⟩

/-- C2 (amended): the legacy download runner (src/src/stressor.rs, the one
`main.rs` wires up) assigns `floor(c/n)` per endpoint plus one extra to the
first `c mod n` endpoints, skips endpoints with share zero, and the shares
(also restricted to the spawned endpoints) sum to exactly `c`; for `c = 10`,
`n = 4` the shares are `[3, 3, 2, 2]`. The multi-mode download dispatcher
(src/src/stressor/download.rs) instead spawns `c` workers on each of the
`n` endpoints, `n * c` in total. -/
theorem C2_download_split_amended :
    (∀ c n : Nat, 0 < n →
      (legacyShares c n).sum = c ∧
      ((legacySpawned c n).map Prod.snd).sum = c ∧
      (∀ p, p ∈ legacySpawned c n → p.2 ≠ 0)) ∧
    legacyShares 10 4 = [3, 3, 2, 2] ∧
    (∀ c n : Nat, (downloadModeWorkerIds c n).length = n * c) := by
  refine ⟨?_, by decide, ?_⟩
  · intro c n h
    refine ⟨legacyShares_sum c n h, legacySpawned_sum c n h, ?_⟩
    intro p hp
    have := List.of_mem_filter hp
    simpa using this
  · intro c n
    unfold downloadModeWorkerIds
    rw [List.length_flatMap]
    have h1 : (List.range n).map
        (List.length ∘ fun idx => (List.range c).map (fun worker => idx * 10000 + worker)) =
        List.replicate n c := by
      simp [Function.comp_def, List.map_const']
    rw [h1, List.sum_replicate, smul_eq_mul]

/-- C2 witness: the amended distribution law evaluated at `c = 10`, `n = 4`. -/
theorem C2_download_split_amended_witness :
    (legacyShares 10 4).sum = 10 ∧ ((legacySpawned 10 4).map Prod.snd).sum = 10 :=
  ⟨(C2_download_split_amended.1 10 4 (by decide)).1,
   (C2_download_split_amended.1 10 4 (by decide)).2.1⟩

/-- C3 counterexample: the mode-aware stats reporter
(src/src/stressor/mod.rs) applies no EMA in download mode. With a 1-second
interval and per-tick byte deltas `[10 MiB, 0]`, its second download-mode
log line reports 0 MB/s, while the claimed EMA-derived figure is
`0.3 * 0 + 0.7 * 10 = 7` MB/s. -/
theorem C3_ema_counterexample :
    reporterLoggedSeq Mode.download [10485760, 0] 1 = [10, 0] ∧
    (reporterLoggedSeq Mode.download [10485760, 0] 1).getLast? = some 0 ∧
    claimDownloadMb [10485760, 0] 1 = some 7 ∧
    (decide ((0 : ℚ) = 7)) = false := by
  have hsec : reporterSeconds 1 = 1 := max_self 1
  have hseq : reporterLoggedSeq Mode.download [10485760, 0] 1 = [10, 0] := by
    simp [reporterLoggedSeq, reporterLoggedMb, reporterMbPerSec, hsec]
    norm_num
  refine ⟨hseq, by rw [hseq]; rfl, ?_, by decide⟩
  simp [claimDownloadMb, legacyEmaSeq, emaUpdate, legacyMbPerSec, hsec]
  norm_num

/-- C3 (amended): the EMA `ema = 0.3 * instant + 0.7 * ema`, seeded by the
first sample, is implemented by the legacy single-mode reporter
(src/src/stressor.rs), which applies it unconditionally and derives its
logged MB/s from the EMA value; the mode-aware reporter
(src/src/stressor/mod.rs) computes its logged MB/s from the instantaneous
per-tick rate `delta / max(interval, 1) / 2^20`, identically for download,
TCP-flood and UDP-flood modes, with no EMA anywhere. -/
theorem C3_ema_amended :
    (∀ (l : List ℚ) (x : ℚ), legacyEmaSeq (l ++ [x]) = some (emaUpdate (legacyEmaSeq l) x)) ∧
    legacyEmaSeq [] = none ∧
    (∀ x : ℚ, legacyEmaSeq [x] = some x) ∧
    (∀ p x : ℚ, emaUpdate (some p) x = (3 / 10) * x + (7 / 10) * p) ∧
    (∀ (mode : Mode) (d i : ℚ), reporterLoggedMb mode d i = d / max i 1 / (1024 * 1024)) := by
  refine ⟨?_, rfl, ?_, ?_, ?_⟩
  · intro l x
    unfold legacyEmaSeq
    rw [List.foldl_append]
    rfl
  · intro x; rfl
  · intro p x
    unfold emaUpdate
    norm_num
  · intro mode d i
    cases mode <;> rfl

theorem dropLenSub (L p : List Nat) :
    (L ++ p).drop ((L ++ p).length - p.length) = p := by
  rw [List.length_append, Nat.add_sub_cancel]
  exact List.drop_left L p

/-- C1: every SOCKS5 UDP datagram built by `build_udp_packet` for target `t`
and payload `p` starts with `00 00` (RSV) and `00` (FRAG); an IPv4-literal
host contributes ATYP `01` plus the 4 octets, an IPv6-literal host ATYP `04`
plus the 16 octets, and any other host ATYP `03` plus a length byte and the
UTF-8 bytes of the host (an error when the host exceeds 255 bytes); then the
port in big-endian and exactly `p`. In particular bytes `[0..4]` are
`00 00 00 ATYP` with `ATYP` in `{01, 03, 04}` and the trailing bytes are `p`. -/
theorem C1_udp_packet_framing (t : SocketTarget) (p : List Nat) :
    (match parseIpAddr t.host with
     | some (IpAddr.v4 a b c d) =>
       build_udp_packet t p = .ok ([0, 0, 0, 1] ++ [a, b, c, d] ++ be16 t.port ++ p)
     | some (IpAddr.v6 groups) =>
       build_udp_packet t p = .ok ([0, 0, 0, 4] ++ v6Octets groups ++ be16 t.port ++ p)
     | none =>
       if 255 < (utf8Bytes t.host).length then
         build_udp_packet t p = .error ("Domain is too long for SOCKS5 UDP header")
       else
         build_udp_packet t p =
           .ok ([0, 0, 0, 3] ++ [(utf8Bytes t.host).length] ++ utf8Bytes t.host ++
             be16 t.port ++ p)) ∧
    (∀ pkt, build_udp_packet t p = .ok pkt →
      pkt.take 3 = [0, 0, 0] ∧
      (pkt.getD 3 0 = 1 ∨ pkt.getD 3 0 = 3 ∨ pkt.getD 3 0 = 4) ∧
      pkt.drop (pkt.length - p.length) = p) := by
  constructor
  · cases hip : parseIpAddr t.host with
    | some addr =>
      cases addr with
      | v4 a b c d =>
        simp only
        unfold build_udp_packet
        rw [hip]
        simp [List.append_assoc]
      | v6 groups =>
        simp only
        unfold build_udp_packet
        rw [hip]
        simp [List.append_assoc]
    | none =>
      simp only
      by_cases hlen : 255 < (utf8Bytes t.host).length
      · rw [if_pos hlen]
        unfold build_udp_packet
        rw [hip]
        simp only
        rw [if_pos hlen]
      · rw [if_neg hlen]
        unfold build_udp_packet
        rw [hip]
        simp only
        rw [if_neg hlen]
        simp [List.append_assoc]
  · intro pkt hpkt
    unfold build_udp_packet at hpkt
    cases hip : parseIpAddr t.host with
    | some addr =>
      cases addr with
      | v4 a b c d =>
        rw [hip] at hpkt
        simp only at hpkt
        injection hpkt with h
        subst h
        refine ⟨rfl, Or.inl rfl, ?_⟩
        have hsplit : ([] : List Nat) ++ [0, 0] ++ [0] ++ [1] ++ [a, b, c, d] ++ be16 t.port ++ p =
            (([] : List Nat) ++ [0, 0] ++ [0] ++ [1] ++ [a, b, c, d] ++ be16 t.port) ++ p := by
          simp [List.append_assoc]
        rw [hsplit]
        exact dropLenSub _ p
      | v6 groups =>
        rw [hip] at hpkt
        simp only at hpkt
        injection hpkt with h
        subst h
        refine ⟨rfl, Or.inr (Or.inr rfl), ?_⟩
        have hsplit : ([] : List Nat) ++ [0, 0] ++ [0] ++ [4] ++ v6Octets groups ++ be16 t.port ++ p =
            (([] : List Nat) ++ [0, 0] ++ [0] ++ [4] ++ v6Octets groups ++ be16 t.port) ++ p := by
          simp [List.append_assoc]
        rw [hsplit]
        exact dropLenSub _ p
    | none =>
      rw [hip] at hpkt
      simp only at hpkt
      by_cases hlen : 255 < (utf8Bytes t.host).length
      · rw [if_pos hlen] at hpkt
        exact absurd hpkt (by simp)
      · rw [if_neg hlen] at hpkt
        injection hpkt with h
        subst h
        refine ⟨rfl, Or.inr (Or.inl rfl), ?_⟩
        have hsplit : ([] : List Nat) ++ [0, 0] ++ [0] ++ [3] ++ [(utf8Bytes t.host).length] ++
            utf8Bytes t.host ++ be16 t.port ++ p =
            (([] : List Nat) ++ [0, 0] ++ [0] ++ [3] ++ [(utf8Bytes t.host).length] ++
              utf8Bytes t.host ++ be16 t.port) ++ p := by
          simp [List.append_assoc]
        rw [hsplit]
        exact dropLenSub _ p

/-- C1 witness: the framing law evaluated at target `1.2.3.4:53` with payload
`AA BB`, reproducing the datagram `00 00 00 01 01 02 03 04 00 35 AA BB`. -/
theorem C1_udp_packet_framing_witness :
    build_udp_packet { host := "1.2.3.4", port := 53 } [170, 187] =
      .ok [0, 0, 0, 1, 1, 2, 3, 4, 0, 53, 170, 187] ∧
    [0, 0, 0, 1, 1, 2, 3, 4, 0, 53, 170, 187].take 3 = [0, 0, 0] ∧
    ([0, 0, 0, 1, 1, 2, 3, 4, 0, 53, 170, 187].getD 3 0 = 1 ∨
      [0, 0, 0, 1, 1, 2, 3, 4, 0, 53, 170, 187].getD 3 0 = 3 ∨
      [0, 0, 0, 1, 1, 2, 3, 4, 0, 53, 170, 187].getD 3 0 = 4) ∧
    [0, 0, 0, 1, 1, 2, 3, 4, 0, 53, 170, 187].drop
      ([0, 0, 0, 1, 1, 2, 3, 4, 0, 53, 170, 187].length - [170, 187].length) = [170, 187] := by
  have hok : build_udp_packet { host := "1.2.3.4", port := 53 } [170, 187] =
      .ok [0, 0, 0, 1, 1, 2, 3, 4, 0, 53, 170, 187] := by
    have h1 := (C1_udp_packet_framing { host := "1.2.3.4", port := 53 } [170, 187]).1
    rw [show parseIpAddr ({ host := "1.2.3.4", port := 53 } : SocketTarget).host =
        some (IpAddr.v4 1 2 3 4) from by decide] at h1
    simp only at h1
    exact h1.trans (by decide)
  have h2 := (C1_udp_packet_framing { host := "1.2.3.4", port := 53 } [170, 187]).2
    [0, 0, 0, 1, 1, 2, 3, 4, 0, 53, 170, 187] hok
  exact ⟨hok, h2.1, h2.2.1, h2.2.2⟩

theorem splitAtFirst_of_not_contains {c : Char} : ∀ {l : List Char},
    l.contains c = false → splitAtFirst c l = none := by
  intro l
  induction l with
  | nil => intro _; rfl
  | cons x rest ih =>
    intro h
    simp [List.contains_cons] at h
    unfold splitAtFirst
    rw [if_neg (by simpa [eq_comm] using h.1)]
    rw [ih (by simpa using h.2)]
    rfl

theorem rsplitOnceChar_of_not_contains {c : Char} {l : List Char}
    (h : l.contains c = false) : rsplitOnceChar c l = none := by
  unfold rsplitOnceChar
  rw [splitAtFirst_of_not_contains (by simpa using h)]

theorem parseU16Digits_le {ds : List Char} {v : Nat} (h : parseU16Digits ds = some v) :
    v ≤ 65535 := by
  unfold parseU16Digits at h
  split at h
  · exact absurd h (by simp)
  · split at h
    · split at h
      · injection h with h1; omega
      · exact absurd h (by simp)
    · exact absurd h (by simp)

theorem parseU16_le {cs : List Char} {v : Nat} (h : parseU16 cs = some v) : v ≤ 65535 :=
  parseU16Digits_le h

/-- C5 counterexample: the claim says a socket token with port 0 is
rejected, but `parse_socket_target` performs no range check beyond `u16`
parsing: `"example.com:0"` is accepted with port 0. -/
theorem C5_socket_port_counterexample :
    parse_socket_target "example.com:0" =
      .ok (Target.Socket { host := "example.com", port := 0 }) ∧
    (parse_socket_target "example.com:0").isOk = true := by
  refine ⟨by decide, by decide⟩

/-- C5 (amended): socket-target parsing succeeds only in the forms
`host:port` and bracketed IPv6 `[addr]:port` (a token with no `:` that does
not open a bracket fails), fails when the host part is empty, and succeeds
exactly when the port part parses as a `u16`, i.e. a number between 0 and
65535 — port 0 is accepted. -/
theorem C5_socket_parse_amended :
    (∀ (token : String) (tg : Target), parse_socket_target token = .ok tg →
      ∃ st, tg = Target.Socket st ∧ st.host ≠ "" ∧ st.port ≤ 65535) ∧
    (∀ token : String, token.data.contains ':' = false → token.data.head? ≠ some '[' →
      parse_socket_target token = .error ("Socket target must be in host:port format")) := by
  constructor
  · intro token tg h
    unfold parse_socket_target at h
    split at h
    · exact absurd h (by simp)
    · rename_i host portStr
      split at h
      · exact absurd h (by simp)
      · rename_i hhost
        split at h
        · exact absurd h (by simp)
        · rename_i port hport
          injection h with h1
          subst h1
          refine ⟨_, rfl, ?_, parseU16_le hport⟩
          intro hempty
          exact hhost (congrArg String.data hempty)
  · intro token h1 h2
    unfold parse_socket_target socketHostPort
    rw [if_neg h2, rsplitOnceChar_of_not_contains h1]

/-- C5 witness: the amended law evaluated at `"h:80"` (accepted, host
`"h"`, port 80 ≤ 65535) and at `"nocolon"` (rejected: wrong form). -/
theorem C5_socket_parse_amended_witness :
    (∃ st, Target.Socket ({ host := "h", port := 80 } : SocketTarget) = Target.Socket st ∧
      st.host ≠ "" ∧ st.port ≤ 65535) ∧
    parse_socket_target "nocolon" = .error ("Socket target must be in host:port format") :=
  ⟨C5_socket_parse_amended.1 "h:80" (Target.Socket { host := "h", port := 80 }) (by decide),
   C5_socket_parse_amended.2 "nocolon" (by decide) (by decide)⟩

/-- C10: a VLESS URI that omits an explicit port parses with port 443; every
successfully parsed VLESS record has port outside `{0, 1}` (the rejection
can only hit explicitly written ports, since the default is 443); and the
separate `validate()` check rejects only port 0, so a record with port 1
passes it. -/
theorem C10_vless_port_rules :
    ((VlessConfig.parse "vless://user-id@example.com?type=tcp").map (fun c => c.port) =
      .ok 443) ∧
    (∀ (s : String) (cfg : VlessConfig), VlessConfig.parse s = .ok cfg →
      cfg.port ≠ 0 ∧ cfg.port ≠ 1) ∧
    VlessConfig.validate vlessPortOne = .ok () ∧
    (∀ cfg : VlessConfig, cfg.validate = .ok () → cfg.port ≠ 0) := by
  refine ⟨by decide, ?_, by decide, ?_⟩
  · intro s cfg h
    unfold VlessConfig.parse at h
    split at h
    · exact absurd h (by simp)
    · split at h
      · exact absurd h (by simp)
      · split at h
        · exact absurd h (by simp)
        · split at h
          · exact absurd h (by simp)
          · rename_i host hp
            dsimp only at h
            split at h
            · exact absurd h (by simp)
            · rename_i hport
              injection h with h1
              subst h1
              push_neg at hport
              constructor
              · simpa [apply_ite (VlessConfig.port)] using hport.1
              · simpa [apply_ite (VlessConfig.port)] using hport.2
  · intro cfg h
    unfold VlessConfig.validate at h
    split at h
    · exact absurd h (by simp)
    · split at h
      · exact absurd h (by simp)
      · split at h
        · exact absurd h (by simp)
        · rename_i hport
          exact hport

/-- C10 witness: the port rules evaluated at the concrete portless URI and
at the concrete port-1 record. -/
theorem C10_vless_port_rules_witness :
    (vlessDefaultPortParsed.port ≠ 0 ∧ vlessDefaultPortParsed.port ≠ 1) ∧
    vlessPortOne.port ≠ 0 :=
  ⟨C10_vless_port_rules.2.1 ("vless://user-id@example.com?type=tcp")
      vlessDefaultPortParsed (by decide),
   C10_vless_port_rules.2.2.2 vlessPortOne C10_vless_port_rules.2.2.1⟩

theorem validateRealityKeys (v : VlessConfig) (hv : v.validate = .ok ())
    (hr : v.security = "reality") :
    ∃ pk sid, v.public_key = some pk ∧ v.short_id = some sid := by
  unfold VlessConfig.validate at hv
  split_ifs at hv <;> try simp at hv
  cases hpk : v.public_key with
  | none => rw [hpk] at hv; simp at hv
  | some pk =>
    rw [hpk] at hv
    cases hsid : v.short_id with
    | none => rw [hsid] at hv; simp at hv
    | some sid => exact ⟨pk, sid, rfl, rfl⟩

theorem buildRealityStreamOk (v : VlessConfig) (hr : v.security = "reality")
    (pk sid : String) (hpk : v.public_key = some pk) (hsid : v.short_id = some sid) :
    ∃ ss, build_vless_trojan_stream_settings (some v) none = .ok ss ∧
      ss.security = "reality" ∧
      ss.realitySettings = some
        { serverName := v.sni.getD v.host, publicKey := pk, shortId := sid,
          fingerprint := v.fingerprint.getD ("chrome"), spiderX := v.spider_x } := by
  unfold build_vless_trojan_stream_settings
  dsimp only
  rw [hr]
  rw [if_neg (by decide), if_pos rfl, hpk, hsid]
  dsimp only
  by_cases hws : v.network = "ws"
  · rw [if_pos hws]
    exact ⟨_, rfl, rfl, rfl⟩
  · rw [if_neg hws]
    by_cases hg : v.network = "grpc"
    · rw [if_pos hg]
      cases hsn : v.service_name with
      | some nm => exact ⟨_, rfl, rfl, rfl⟩
      | none => exact ⟨_, rfl, rfl, rfl⟩
    · rw [if_neg hg]
      exact ⟨_, rfl, rfl, rfl⟩

theorem buildRealityTrojanErr (t : TrojanConfig) (h : t.security = some "reality") :
    build_vless_trojan_stream_settings none (some t) =
      .error ("Reality security is only supported for VLESS") := by
  unfold build_vless_trojan_stream_settings
  dsimp only
  rw [h]
  simp only [Option.getD_some]
  rw [if_neg (by decide)]
  simp

/-- C4 counterexample: the parser validation only checks that `pbk`/`sid`
are present, not non-empty. The record `realityEmptyPk` (whose `pbk` query
value was the empty string) passes `validate`, yet the generated
`realitySettings` carries the empty `publicKey`, contradicting the claimed
non-emptiness. -/
theorem C4_reality_counterexample :
    VlessConfig.validate realityEmptyPk = .ok () ∧
    build_vless_trojan_stream_settings (some realityEmptyPk) none =
      .ok { network := "tcp", security := "reality", tlsSettings := none,
            realitySettings := some { serverName := "h", publicKey := "", shortId := "abc",
                                      fingerprint := "chrome", spiderX := none },
            wsSettings := none, grpcServiceName := none } ∧
    ("" : String).data = [] := by
  refine ⟨by decide, by decide, rfl⟩

/-- C4 (amended): for every VLESS record with `security = "reality"` accepted
by `validate`, the public key and short id are present (though possibly
empty), and the generated stream settings carry `realitySettings` with
exactly those values, `serverName` falling back to the host when `sni` is
absent and `fingerprint` defaulting to `"chrome"`; requesting reality stream
settings for a non-VLESS (Trojan) record fails with an error. -/
theorem C4_reality_settings_amended :
    (∀ v : VlessConfig, v.validate = .ok () → v.security = "reality" →
      ∃ pk sid ss, v.public_key = some pk ∧ v.short_id = some sid ∧
        build_vless_trojan_stream_settings (some v) none = .ok ss ∧
        ss.security = "reality" ∧
        ss.realitySettings = some
          { serverName := v.sni.getD v.host, publicKey := pk, shortId := sid,
            fingerprint := v.fingerprint.getD ("chrome"), spiderX := v.spider_x }) ∧
    (∀ t : TrojanConfig, t.security = some "reality" →
      build_vless_trojan_stream_settings none (some t) =
        .error ("Reality security is only supported for VLESS")) := by
  constructor
  · intro v hv hr
    obtain ⟨pk, sid, hpk, hsid⟩ := validateRealityKeys v hv hr
    obtain ⟨ss, hok, hsec, hrs⟩ := buildRealityStreamOk v hr pk sid hpk hsid
    exact ⟨pk, sid, ss, hpk, hsid, hok, hsec, hrs⟩
  · intro t ht
    exact buildRealityTrojanErr t ht

/-- C4 witness: the amended law evaluated at the concrete valid reality
record `realityOkRecord` and the concrete reality Trojan record. -/
theorem C4_reality_settings_amended_witness :
    (∃ pk sid ss, realityOkRecord.public_key = some pk ∧
      realityOkRecord.short_id = some sid ∧
      build_vless_trojan_stream_settings (some realityOkRecord) none = .ok ss ∧
      ss.security = "reality" ∧
      ss.realitySettings = some
        { serverName := realityOkRecord.sni.getD realityOkRecord.host, publicKey := pk,
          shortId := sid, fingerprint := realityOkRecord.fingerprint.getD ("chrome"),
          spiderX := realityOkRecord.spider_x }) ∧
    build_vless_trojan_stream_settings none (some trojanRealityRecord) =
      .error ("Reality security is only supported for VLESS") :=
  ⟨C4_reality_settings_amended.1 realityOkRecord (by decide) rfl,
   C4_reality_settings_amended.2 trojanRealityRecord rfl⟩

theorem splitAtFirst_fst_not_contains {c : Char} : ∀ {l a b : List Char},
    splitAtFirst c l = some (a, b) → a.contains c = false := by
  intro l
  induction l with
  | nil => intro a b h; simp [splitAtFirst] at h
  | cons x rest ih =>
    intro a b h
    unfold splitAtFirst at h
    by_cases hx : x = c
    · rw [if_pos hx] at h
      injection h with h1
      injection h1 with ha hb
      subst ha
      rfl
    · rw [if_neg hx] at h
      cases hsp : splitAtFirst c rest with
      | none => rw [hsp] at h; simp at h
      | some p =>
        obtain ⟨p1, p2⟩ := p
        rw [hsp] at h
        simp only [Option.map_some'] at h
        injection h with h1
        injection h1 with ha hb
        subst ha
        simp [List.contains_cons, List.contains_eq_any_beq] at ih ⊢
        exact ⟨fun hcx => hx hcx.symm, ih hsp⟩

/-- C6 counterexample: the claimed order tries plain text first, which
always applies, so it would leave the base64 user-info `YWJjOmRlZg==`
undecoded (and the Shadowsocks parse would fail for lack of a `:`); the
code instead percent-decodes and then tries standard base64 first, decoding
it to `abc:def` and parsing method `abc`, password `def`. -/
theorem C6_userinfo_decode_counterexample :
    auto_decode (utf8Bytes "YWJjOmRlZg==") = utf8Bytes "abc:def" ∧
    auto_decode_claim_order (utf8Bytes "YWJjOmRlZg==") = utf8Bytes "YWJjOmRlZg==" ∧
    (decide (utf8Bytes "abc:def" = utf8Bytes "YWJjOmRlZg==")) = false ∧
    ShadowsocksConfig.parse "ss://YWJjOmRlZg==@h:8388" =
      .ok { name := none, method := "abc", password := "def", server := "h", port := 8388,
            settings := [] } := by
  refine ⟨by decide, rfl, by decide, by decide⟩

/-- C6 (amended): the parser percent-decodes the user-info first (keeping
the raw bytes when the result is not UTF-8), then tries standard base64,
then URL-safe base64, and finally keeps the percent-decoded text itself;
the decoded string is split on its first `:` into method and password
(failing when no `:` is present), so the method never contains `:`; the
user-info `aes-128-gcm:secret` yields method `aes-128-gcm` and password
`secret`. -/
theorem C6_userinfo_decode_amended :
    (∀ b d : List Nat, utf8Valid (percentDecode b) = true →
      b64DecodeStd (percentDecode b) = some d → auto_decode b = d) ∧
    (∀ b : List Nat, utf8Valid (percentDecode b) = true →
      b64DecodeStd (percentDecode b) = none → b64DecodeUrl (percentDecode b) = none →
      auto_decode b = percentDecode b) ∧
    (∀ (s : String) (cfg : ShadowsocksConfig), ShadowsocksConfig.parse s = .ok cfg →
      cfg.method.data.contains ':' = false) ∧
    ShadowsocksConfig.parse "ss://aes-128-gcm:secret@example.com:8388#ssnode" =
      .ok { name := some "ssnode", method := "aes-128-gcm", password := "secret",
            server := "example.com", port := 8388, settings := [] } := by
  refine ⟨?_, ?_, ?_, by decide⟩
  · intro b d h1 h2
    unfold auto_decode
    rw [if_pos h1, h2]
  · intro b h1 h2 h3
    unfold auto_decode
    rw [if_pos h1, h2, h3]
  · intro s cfg h
    unfold ShadowsocksConfig.parse at h
    split at h
    · exact absurd h (by simp)
    · split at h
      · exact absurd h (by simp)
      · dsimp only at h
        split at h
        · exact absurd h (by simp)
        · split at h
          · exact absurd h (by simp)
          · rename_i m p hsp
            split at h
            · exact absurd h (by simp)
            · split at h
              · exact absurd h (by simp)
              · split at h
                · exact absurd h (by simp)
                · injection h with h1
                  subst h1
                  exact splitAtFirst_fst_not_contains hsp

/-- C6 witness: the decode order and split laws evaluated at the base64
user-info `YWJjOmRlZg==` and the plain example URI. -/
theorem C6_userinfo_decode_amended_witness :
    auto_decode (utf8Bytes "YWJjOmRlZg==") = utf8Bytes "abc:def" ∧
    ({ name := some "ssnode", method := "aes-128-gcm", password := "secret",
       server := "example.com", port := 8388,
       settings := [] } : ShadowsocksConfig).method.data.contains ':' = false :=
  ⟨C6_userinfo_decode_amended.1 (utf8Bytes "YWJjOmRlZg==") (utf8Bytes "abc:def")
      (by decide) (by decide),
   C6_userinfo_decode_amended.2.2.1 "ss://aes-128-gcm:secret@example.com:8388#ssnode" _
      C6_userinfo_decode_amended.2.2.2⟩

theorem parseProxyLines_eq : ∀ lines : List String,
    parseProxyLines lines = lines.filterMap (fun l =>
      if trimStr l = "" ∨ strStartsWith (trimStr l) ("#") then none
      else (parse_proxy_url (trimStr l)).toOption) := by
  intro lines
  induction lines with
  | nil => rfl
  | cons line rest ih =>
    unfold parseProxyLines
    rw [List.filterMap_cons]
    by_cases hskip : trimStr line = "" ∨ strStartsWith (trimStr line) ("#")
    · rw [if_pos hskip, if_pos hskip, ih]
    · rw [if_neg hskip, if_neg hskip]
      cases hp : parse_proxy_url (trimStr line) with
      | ok cfg => simp [Except.toOption, ih]
      | error e => simp [Except.toOption, ih]

/-- C7: `parse_proxy_list` skips lines that are blank after trimming or
start with `#`, parses each surviving line independently, drops failing
lines, returns the successes in line order (the `filterMap`
characterization), and errors exactly when that list is empty; the
four-line example (comment, valid vless, vmess, valid ss) yields exactly
the two records of `c7Records` (VLESS then Shadowsocks). -/
theorem C7_proxy_list_parsing :
    (∀ content : String,
      match parse_proxy_list content with
      | .ok cfgs => cfgs = proxyLineResults content ∧ cfgs.isEmpty = false
      | .error _ => (proxyLineResults content).isEmpty = true) ∧
    parse_proxy_list c7Content = .ok c7Records ∧
    (parse_proxy_list c7Content).map (fun l => (l.length, l.map protocolIndex)) =
      .ok (2, [0, 2]) := by
  refine ⟨?_, by decide, by decide⟩
  intro content
  have hl : parseProxyLines (linesOf content) = proxyLineResults content :=
    parseProxyLines_eq (linesOf content)
  unfold parse_proxy_list
  dsimp only
  rw [hl]
  by_cases hempty : proxyLineResults content = []
  · rw [if_pos hempty]
    simp [hempty]
  · rw [if_neg hempty]
    simp [hempty]

/-- C7 witness: the line-handling law evaluated at the concrete four-line
content. -/
theorem C7_proxy_list_parsing_witness :
    c7Records = proxyLineResults c7Content ∧ c7Records.isEmpty = false := by
  have h := C7_proxy_list_parsing.1 c7Content
  rw [C7_proxy_list_parsing.2.1] at h
  exact h

theorem containsAppend (a b : List Char) (c : Char) :
    (a ++ b).contains c = (a.contains c || b.contains c) := by
  simp [List.contains_eq_any_beq, List.any_append]

theorem containsReverse (l : List Char) (c : Char) :
    l.reverse.contains c = l.contains c := by
  simp [List.contains_eq_any_beq, List.any_reverse]

theorem digitCharFacts : ∀ d, d < 10 →
    isDigitB (Char.ofNat (48 + d)) = true ∧ (Char.ofNat (48 + d)).toNat = 48 + d := by
  decide

theorem natDigitsAux_ne_nil (f n : Nat) : natDigitsAux (f + 1) n ≠ [] := by
  unfold natDigitsAux
  split <;> simp

theorem natDigits_ne_nil (n : Nat) : natDigits n ≠ [] := natDigitsAux_ne_nil n n

theorem natDigitsAux_all : ∀ (f n : Nat), n < f → (natDigitsAux f n).all isDigitB = true := by
  intro f
  induction f with
  | zero => intro n h; omega
  | succ f' ih =>
    intro n h
    unfold natDigitsAux
    split
    · rename_i h10
      simp [List.all_cons, (digitCharFacts n h10).1]
    · rename_i h10
      rw [List.all_append]
      have hdiv : n / 10 < f' := by
        have h1 : n / 10 < n := Nat.div_lt_self (by omega) (by omega)
        omega
      rw [ih (n / 10) hdiv]
      simp [(digitCharFacts (n % 10) (Nat.mod_lt _ (by omega))).1]

theorem natDigits_all (n : Nat) : (natDigits n).all isDigitB = true :=
  natDigitsAux_all (n + 1) n (by omega)

theorem digitsVal_append_one (a : List Char) (c : Char) :
    digitsVal (a ++ [c]) = digitsVal a * 10 + (c.toNat - 48) := by
  unfold digitsVal
  rw [List.foldl_append]
  rfl

theorem digitsVal_natDigitsAux : ∀ (f n : Nat), n < f →
    digitsVal (natDigitsAux f n) = n := by
  intro f
  induction f with
  | zero => intro n h; omega
  | succ f' ih =>
    intro n h
    unfold natDigitsAux
    split
    · rename_i h10
      unfold digitsVal
      simp [(digitCharFacts n h10).2]
    · rename_i h10
      rw [digitsVal_append_one]
      have hdiv : n / 10 < f' := by
        have h1 : n / 10 < n := Nat.div_lt_self (by omega) (by omega)
        omega
      rw [ih (n / 10) hdiv, (digitCharFacts (n % 10) (Nat.mod_lt _ (by omega))).2]
      omega

theorem digitsVal_natDigits (n : Nat) : digitsVal (natDigits n) = n :=
  digitsVal_natDigitsAux (n + 1) n (by omega)


theorem isDigitB_toNat {c : Char} (h : isDigitB c = true) : 48 ≤ c.toNat ∧ c.toNat ≤ 57 := by
  simpa [isDigitB] using h

theorem digit_not_ws {c : Char} (h : isDigitB c = true) : isWsB c = false := by
  obtain ⟨h1, h2⟩ := isDigitB_toNat h
  unfold isWsB
  rw [Bool.eq_false_iff]
  intro hw
  have hd : ((c = ' ' ∨ c = '\t') ∨ c = '\r') ∨ c = '\n' := by
    simpa [Char.isWhitespace] using hw
  rcases hd with ((hc | hc) | hc) | hc <;> (rw [hc] at h1 h2; revert h1 h2; decide)

theorem natDigits_not_colon (p : Nat) : (natDigits p).contains ':' = false := by
  rw [Bool.eq_false_iff]
  intro hc
  have hmem : ':' ∈ natDigits p := by simpa using hc
  have := List.all_eq_true.mp (natDigits_all p) _ hmem
  exact absurd this (by decide)

theorem natDigits_not_comma (p : Nat) : (natDigits p).contains ',' = false := by
  rw [Bool.eq_false_iff]
  intro hc
  have hmem : ',' ∈ natDigits p := by simpa using hc
  have := List.all_eq_true.mp (natDigits_all p) _ hmem
  exact absurd this (by decide)

theorem parseU16_natDigits {p : Nat} (hp : p ≤ 65535) : parseU16 (natDigits p) = some p := by
  unfold parseU16
  have hall := natDigits_all p
  have hne := natDigits_ne_nil p
  have hplus : (natDigits p).head? ≠ some '+' := by
    cases hd : natDigits p with
    | nil => exact absurd hd hne
    | cons x rest =>
      rw [hd] at hall
      simp [List.all_cons] at hall
      intro hh
      injection hh with hx
      rw [hx] at hall
      exact absurd hall.1 (by decide)
  rw [if_neg hplus]
  cases hd : natDigits p with
  | nil => exact absurd hd hne
  | cons x rest =>
    unfold parseU16Digits
    rw [← hd, hd]
    dsimp only
    rw [show (x :: rest).all isDigitB = true from hd ▸ hall]
    rw [if_pos rfl]
    rw [show digitsVal (x :: rest) = p from hd ▸ digitsVal_natDigits p]
    rw [if_pos hp]

theorem splitOnChar_single {c : Char} : ∀ {l : List Char},
    l.contains c = false → splitOnChar c l = [l] := by
  intro l
  induction l with
  | nil => intro _; rfl
  | cons x rest ih =>
    intro h
    simp [List.contains_cons] at h
    unfold splitOnChar
    rw [if_neg (by simpa [eq_comm] using h.1), ih (by simpa using h.2)]

theorem splitOnChar_append_cons {c : Char} : ∀ {a : List Char} (b : List Char),
    a.contains c = false → splitOnChar c (a ++ c :: b) = a :: splitOnChar c b := by
  intro a
  induction a with
  | nil =>
    intro b _
    show splitOnChar c (c :: b) = [] :: splitOnChar c b
    conv_lhs => unfold splitOnChar
    rw [if_pos rfl]
  | cons x rest ih =>
    intro b h
    simp [List.contains_cons] at h
    show splitOnChar c (x :: (rest ++ c :: b)) = (x :: rest) :: splitOnChar c b
    conv_lhs => unfold splitOnChar
    rw [if_neg (by simpa [eq_comm] using h.1)]
    rw [ih b (by simpa using h.2)]

theorem splitAtFirst_append_cons {c : Char} : ∀ {a : List Char} (b : List Char),
    a.contains c = false → splitAtFirst c (a ++ c :: b) = some (a, b) := by
  intro a
  induction a with
  | nil =>
    intro b _
    show splitAtFirst c (c :: b) = some ([], b)
    unfold splitAtFirst
    rw [if_pos rfl]
  | cons x rest ih =>
    intro b h
    simp [List.contains_cons] at h
    show splitAtFirst c (x :: (rest ++ c :: b)) = some (x :: rest, b)
    unfold splitAtFirst
    rw [if_neg (by simpa [eq_comm] using h.1)]
    rw [ih b (by simpa using h.2)]
    rfl

theorem rsplitOnceChar_canon {h ds : List Char} (hds : ds.contains ':' = false) :
    rsplitOnceChar ':' (h ++ ':' :: ds) = some (h, ds) := by
  unfold rsplitOnceChar
  have hrev : (h ++ ':' :: ds).reverse = ds.reverse ++ ':' :: h.reverse := by
    simp [List.reverse_append]
  rw [hrev, splitAtFirst_append_cons h.reverse (by rw [containsReverse]; exact hds)]
  simp

theorem dropWhile_eq_self_of_head {l : List Char} {p : Char → Bool}
    (h : ∀ c, l.head? = some c → p c = false) : l.dropWhile p = l := by
  cases l with
  | nil => rfl
  | cons x rest =>
    rw [List.dropWhile_cons, h x rfl]
    simp

theorem trimChars_eq_self {l : List Char}
    (hh : ∀ c, l.head? = some c → isWsB c = false)
    (hl : ∀ c, l.getLast? = some c → isWsB c = false) : trimChars l = l := by
  unfold trimChars
  rw [dropWhile_eq_self_of_head hh]
  rw [dropWhile_eq_self_of_head (by
    intro c hc
    rw [List.head?_reverse] at hc
    exact hl c hc)]
  exact List.reverse_reverse l

theorem getLast?_natDigits_digit {p : Nat} {c : Char}
    (h : (natDigits p).getLast? = some c) : isDigitB c = true := by
  have hmem : c ∈ natDigits p := List.mem_of_getLast?_eq_some h
  exact List.all_eq_true.mp (natDigits_all p) c hmem

theorem displayData (t : SocketTarget) :
    (SocketTarget.display t).data = t.host.data ++ ':' :: natDigits t.port := by
  show (t.host.data ++ (":" : String).data) ++ natDigits t.port = _
  simp

theorem display_head {t : SocketTarget} {x : Char} {rest : List Char}
    (hc : t.host.data = x :: rest) :
    (SocketTarget.display t).data.head? = some x := by
  rw [displayData t, hc]
  rfl

theorem display_trim (t : SocketTarget) (h1 : t.host.data ≠ [])
    (hws : ∀ c, t.host.data.head? = some c → isWsB c = false) :
    trimChars (SocketTarget.display t).data = (SocketTarget.display t).data := by
  apply trimChars_eq_self
  · intro c hc
    cases hd : t.host.data with
    | nil => exact absurd hd h1
    | cons x rest =>
      rw [display_head hd] at hc
      injection hc with hx
      rw [← hx]
      exact hws x (by rw [hd]; rfl)
  · intro c hc
    rw [displayData t] at hc
    rw [List.getLast?_append_of_ne_nil _ (by simp)] at hc
    have hdig : (natDigits t.port).getLast? = some c := by
      have hcons : (':' :: natDigits t.port) = [':'] ++ natDigits t.port := rfl
      rw [hcons, List.getLast?_append_of_ne_nil _ (natDigits_ne_nil t.port)] at hc
      exact hc
    exact digit_not_ws (getLast?_natDigits_digit hdig)

theorem display_no_comma (t : SocketTarget) (hcomma : t.host.data.contains ',' = false) :
    (SocketTarget.display t).data.contains ',' = false := by
  rw [displayData t]
  rw [containsAppend, hcomma]
  rw [List.contains_cons]
  simp only [Bool.false_or]
  rw [natDigits_not_comma]
  decide

theorem display_ne_nil (t : SocketTarget) : (SocketTarget.display t).data ≠ [] := by
  rw [displayData t]
  intro h
  exact absurd (congrArg List.length h) (by simp)

theorem parse_socket_target_display (t : SocketTarget)
    (h1 : t.host.data ≠ []) (h2 : t.host.data.head? ≠ some '[') (h5 : t.port ≤ 65535) :
    parse_socket_target (SocketTarget.display t) = .ok (Target.Socket t) := by
  unfold parse_socket_target
  have hhp : socketHostPort (SocketTarget.display t).data =
      .ok (t.host.data, natDigits t.port) := by
    unfold socketHostPort
    rw [displayData t]
    have hhead : (t.host.data ++ ':' :: natDigits t.port).head? ≠ some '[' := by
      cases hc : t.host.data with
      | nil => exact absurd hc h1
      | cons x rest =>
        rw [hc] at h2
        simpa using h2
    rw [if_neg hhead, rsplitOnceChar_canon (natDigits_not_colon t.port)]
  rw [hhp]
  dsimp only
  rw [if_neg h1, parseU16_natDigits h5]

theorem socketCanon_spec {t : SocketTarget} (h : socketCanon t = true) :
    t.host.data ≠ [] ∧ t.host.data.head? ≠ some '[' ∧
    (∀ c, t.host.data.head? = some c → isWsB c = false) ∧
    t.host.data.contains ',' = false ∧ t.port ≤ 65535 := by
  unfold socketCanon at h
  simp only [Bool.and_eq_true, bne_iff_ne, Bool.not_eq_true', decide_eq_true_eq] at h
  obtain ⟨⟨⟨⟨h1, h2⟩, h3⟩, h4⟩, h5⟩ := h
  refine ⟨h1, h2, ?_, h4, h5⟩
  intro c hc
  rw [hc] at h3
  simpa using h3

theorem socketTokensParse (mode : Mode) (hm : mode = Mode.tcpFlood ∨ mode = Mode.udpFlood) :
    ∀ ts : List SocketTarget, (∀ t ∈ ts, socketCanon t = true) →
      parseTargetTokens mode ((ts.map SocketTarget.display).map String.data) =
        .ok (ts.map Target.Socket) := by
  intro ts
  induction ts with
  | nil => intro _; rfl
  | cons t rest ih =>
    intro hc
    obtain ⟨hne, hbr, hws, hcomma, hport⟩ := socketCanon_spec (hc t (List.mem_cons_self t rest))
    have hrest := fun z hz => hc z (List.mem_cons_of_mem t hz)
    show parseTargetTokens mode ((SocketTarget.display t).data ::
      (rest.map SocketTarget.display).map String.data) =
      .ok (Target.Socket t :: rest.map Target.Socket)
    conv_lhs => unfold parseTargetTokens
    rw [display_trim t hne hws]
    rw [if_neg (display_ne_nil t)]
    have heta : ({ data := (SocketTarget.display t).data } : String) =
        SocketTarget.display t := rfl
    rcases hm with h | h <;> subst h
    · dsimp only
      rw [heta, parse_socket_target_display t hne hbr hport, ih hrest]
    · dsimp only
      rw [heta, parse_socket_target_display t hne hbr hport, ih hrest]

theorem joinSplit : ∀ xs : List String, xs ≠ [] →
    (∀ x ∈ xs, x.data.contains ',' = false) →
    splitOnChar ',' (joinComma xs).data = xs.map String.data := by
  intro xs
  induction xs with
  | nil => intro h _; exact absurd rfl h
  | cons x rest ih =>
    intro _ hc
    cases rest with
    | nil =>
      show splitOnChar ',' x.data = [x.data]
      exact splitOnChar_single (hc x (List.mem_cons_self x []))
    | cons y rest2 =>
      show splitOnChar ',' (x ++ "," ++ joinComma (y :: rest2)).data =
        x.data :: (y :: rest2).map String.data
      have hdata : (x ++ "," ++ joinComma (y :: rest2)).data =
          x.data ++ ',' :: (joinComma (y :: rest2)).data := by
        show (x.data ++ ("," : String).data) ++ (joinComma (y :: rest2)).data = _
        simp
      rw [hdata, splitOnChar_append_cons _ (hc x (List.mem_cons_self x (y :: rest2)))]
      rw [ih (by simp) (fun z hz => hc z (List.mem_cons_of_mem x hz))]

theorem httpCanon_spec {tok : String} (h : httpCanon tok = true) :
    tok.data ≠ [] ∧ trimChars tok.data = tok.data ∧ tok.data.contains ',' = false ∧
    ∃ u, urlParse tok = some u ∧ (u.scheme = "http" ∨ u.scheme = "https") := by
  unfold httpCanon at h
  simp only [Bool.and_eq_true, bne_iff_ne, Bool.not_eq_true', beq_iff_eq] at h
  obtain ⟨⟨⟨h1, h2⟩, h3⟩, h4⟩ := h
  refine ⟨h1, h2, h3, ?_⟩
  cases hw : urlParse tok with
  | none => rw [hw] at h4; exact absurd h4 (by simp)
  | some u =>
    rw [hw] at h4
    refine ⟨u, rfl, ?_⟩
    simpa using h4

theorem httpTokensParse :
    ∀ urls : List String, (∀ u ∈ urls, httpCanon u = true) →
      parseTargetTokens Mode.download (urls.map String.data) = .ok (urls.map Target.Http) := by
  intro urls
  induction urls with
  | nil => intro _; rfl
  | cons u rest ih =>
    intro hc
    obtain ⟨hne, htrim, hcomma, w, hw, hscheme⟩ := httpCanon_spec (hc u (List.mem_cons_self u rest))
    show parseTargetTokens Mode.download (u.data :: rest.map String.data) =
      .ok (Target.Http u :: rest.map Target.Http)
    conv_lhs => unfold parseTargetTokens
    rw [htrim, if_neg hne]
    dsimp only
    have heta : ({ data := u.data } : String) = u := rfl
    rw [heta]
    unfold parse_http_target
    rw [hw]
    dsimp only
    rw [if_pos hscheme]
    rw [ih (fun z hz => hc z (List.mem_cons_of_mem u hz))]

/-- C8 (amended): for canonical target tokens the round trip holds: comma-
joining and re-parsing a non-empty list of canonical socket targets (host
non-empty, not bracket-opening, no leading whitespace, comma-free, `u16`
port) returns exactly those targets, and rendering them back as `host:port`
reproduces the tokens; likewise a non-empty list of canonical HTTP tokens
(trimmed, comma-free, scheme `http`/`https`) parses to `Http` targets kept
verbatim. Bracketed IPv6 tokens and non-canonical port spellings are
excluded: for those the rendered form differs from the original token. -/
theorem C8_target_roundtrip_amended :
    (∀ (ts : List SocketTarget) (mode : Mode),
      (mode = Mode.tcpFlood ∨ mode = Mode.udpFlood) → ts ≠ [] →
      (∀ t ∈ ts, socketCanon t = true) →
      parse_target_list (joinComma (ts.map SocketTarget.display)) mode =
        .ok (ts.map Target.Socket) ∧
      (ts.map Target.Socket).map renderTarget = ts.map SocketTarget.display) ∧
    (∀ urls : List String, urls ≠ [] → (∀ u ∈ urls, httpCanon u = true) →
      parse_target_list (joinComma urls) Mode.download = .ok (urls.map Target.Http) ∧
      (urls.map Target.Http).map renderTarget = urls) := by
  constructor
  · intro ts mode hm hne hcanon
    constructor
    · unfold parse_target_list
      rw [joinSplit (ts.map SocketTarget.display)
          (by cases ts with | nil => exact absurd rfl hne | cons a l => simp)
          (by
            intro x hx
            obtain ⟨t, ht, rfl⟩ := List.mem_map.mp hx
            exact display_no_comma t (socketCanon_spec (hcanon t ht)).2.2.2.1)]
      rw [socketTokensParse mode hm ts hcanon]
      cases ts with
      | nil => exact absurd rfl hne
      | cons a l => rfl
    · rw [List.map_map]
      rfl
  · intro urls hne hcanon
    constructor
    · unfold parse_target_list
      rw [joinSplit urls hne (fun z hz => (httpCanon_spec (hcanon z hz)).2.2.1)]
      rw [httpTokensParse urls hcanon]
      cases urls with
      | nil => exact absurd rfl hne
      | cons a l => rfl
    · rw [List.map_map]
      exact List.map_id urls

/-- C8 counterexample: the bracketed IPv6 token `[::1]:80` is a well-formed
socket token (the parser accepts it), but the parsed target renders back as
`::1:80`, not the original token, so the round-trip law fails on it. -/
theorem C8_target_roundtrip_counterexample :
    parse_target_list "[::1]:80" Mode.udpFlood =
      .ok [Target.Socket { host := "::1", port := 80 }] ∧
    renderTarget (Target.Socket { host := "::1", port := 80 }) = "::1:80" ∧
    (decide (("::1:80" : String) = "[::1]:80")) = false := by
  refine ⟨by decide, by decide, by decide⟩

/-- C8 witness: the round trip evaluated at the concrete token lists
`1.2.3.4:53,h:8080` (TCP-flood mode) and `http://a.com/x` (download mode). -/
theorem C8_target_roundtrip_amended_witness :
    (parse_target_list
        (joinComma ([{ host := "1.2.3.4", port := 53 },
                     { host := "h", port := 8080 }].map SocketTarget.display)) Mode.tcpFlood =
      .ok [Target.Socket { host := "1.2.3.4", port := 53 },
           Target.Socket { host := "h", port := 8080 }]) ∧
    parse_target_list (joinComma ["http://a.com/x"]) Mode.download =
      .ok [Target.Http "http://a.com/x"] :=
  ⟨(C8_target_roundtrip_amended.1 [{ host := "1.2.3.4", port := 53 }, { host := "h", port := 8080 }]
      Mode.tcpFlood (Or.inl rfl) (by simp) (by decide)).1,
   (C8_target_roundtrip_amended.2 ["http://a.com/x"] (by simp) (by decide)).1⟩
